import Mathlib

/-!
# Gesture recognition core of `assets/js/gestures.js`

A shallow embedding of the landmark classifier, the stabilizer, the motion
detector and the frame loop of `gestures.js`, followed by theorems about them.

Modelling conventions

* Coordinates and times are JavaScript numbers; they are modelled as exact
  rationals (`ℚ`).
* `dist(a, b) = Math.hypot(dx, dy)` is only ever compared against a
  non-negative constant `t`.  Over exact numbers `hypot dx dy > t` is
  `dx*dx + dy*dy > t*t` and `hypot dx dy < t` is `dx*dx + dy*dy < t*t`
  (lemmas `distGt_iff_sqrt`, `distLt_iff_sqrt` below), so the comparisons are
  embedded on the squared distance `distSq`, which keeps them computable.
* A hand pose `lm` is the array of 21 landmarks delivered by the hand
  landmarker; `lm[i]` is `lm i`.
* Commands are the JavaScript strings themselves; `null` is `none`.
* The module level `let` variables are the fields of `State`.  The text
  written to the status and debug elements and the badge styling are display
  only and are not part of the state; the text of `commandText` and the
  sequence of dispatched `control:command` events are.
-/

namespace Gestures

/-! ## Data model -/

/-- One normalized landmark `{x, y, z}`. -/
structure Landmark where
  x : ℚ
  y : ℚ
  z : ℚ
deriving DecidableEq

/-- The 21 landmarks of one hand, indexed as in the source (`lm[i]`). -/
abbrev HandPose := Fin 21 → Landmark

/-- Constant `SUSPEND_AFTER_MS`. -/
def SUSPEND_AFTER_MS : ℚ := 3500

/-- Constant `MOTION_WAKE_THRESHOLD`. -/
def MOTION_WAKE_THRESHOLD : ℚ := 18

/-- Constant `MOTION_SAMPLE_SIZE`. -/
def MOTION_SAMPLE_SIZE : Nat := 128

/-- Constant `STABLE_FRAMES`. -/
def STABLE_FRAMES : Nat := 3

/-- Constant `MIRRORED_VIEW`. -/
def MIRRORED_VIEW : Bool := true

/-! ## Geometry / fingers -/

/-- Square of `dist(a, b) = Math.hypot(a.x - b.x, a.y - b.y)`. -/
def distSq (a b : Landmark) : ℚ :=
  let dx := a.x - b.x
  let dy := a.y - b.y
  dx * dx + dy * dy

/-- The test `dist(a, b) > t` for a constant `t ≥ 0`. -/
def distGt (a b : Landmark) (t : ℚ) : Bool := decide (distSq a b > t * t)

/-- The test `dist(a, b) < t` for a constant `t ≥ 0`. -/
def distLt (a b : Landmark) (t : ℚ) : Bool := decide (distSq a b < t * t)

/-- Source `fingerExtended(lm, tipIdx, pipIdx)`. -/
def fingerExtended (lm : HandPose) (tipIdx pipIdx : Fin 21) : Bool :=
  decide ((lm tipIdx).y < (lm pipIdx).y)

/-- Source `thumbExtended(lm)`. -/
def thumbExtended (lm : HandPose) : Bool :=
  distGt (lm 4) (lm 5) 0.12 && distGt (lm 4) (lm 0) 0.18

/-- The object `{ th, idx, mid, ring, pinky }` returned by `fingerFlags`. -/
structure Flags where
  th : Bool
  idx : Bool
  mid : Bool
  ring : Bool
  pinky : Bool
deriving DecidableEq, Repr

/-- Source `fingerFlags(lm)`. -/
def fingerFlags (lm : HandPose) : Flags :=
  let th := thumbExtended lm
  let idx := fingerExtended lm 8 6
  let mid := fingerExtended lm 12 10
  let ring := fingerExtended lm 16 14
  let pinky := fingerExtended lm 20 18
  { th := th, idx := idx, mid := mid, ring := ring, pinky := pinky }

/-- Source `countExtendedFingers(lm)`. -/
def countExtendedFingers (lm : HandPose) : Nat :=
  let f := fingerFlags lm
  ([f.th, f.idx, f.mid, f.ring, f.pinky].filter id).length

/-- Source `isOKSign(lm)`. -/
def isOKSign (lm : HandPose) : Bool :=
  let okClose := distLt (lm 4) (lm 8) 0.06
  let mid := fingerExtended lm 12 10
  let ring := fingerExtended lm 16 14
  let pinky := fingerExtended lm 20 18
  okClose && (mid || ring || pinky)

/-- Source `isOpenPalm(lm)`. -/
def isOpenPalm (lm : HandPose) : Bool :=
  countExtendedFingers lm == 5

/-- Source `isFist(lm)`. -/
def isFist (lm : HandPose) : Bool :=
  let f := fingerFlags lm
  !f.th && !f.idx && !f.mid && !f.ring && !f.pinky

/-- Source `dirFromVx(vx)`; `null` is `none`. -/
def dirFromVx (vx : ℚ) : Option String :=
  if |vx| < 0.08 then none
  else
    let raw := if vx > 0 then "RIGHT" else "LEFT"
    if !MIRRORED_VIEW then some raw
    else some (if raw == "RIGHT" then "LEFT" else "RIGHT")

/-- Source `indexPointingDir(lm)`. -/
def indexPointingDir (lm : HandPose) : Option String :=
  let f := fingerFlags lm
  if !f.idx then none
  else if f.mid || f.ring || f.pinky then none
  else if f.th then none
  else
    let vx := (lm 8).x - (lm 5).x
    dirFromVx vx

/-- Source `thumbPointingDir(lm)`. -/
def thumbPointingDir (lm : HandPose) : Option String :=
  let f := fingerFlags lm
  if !f.th then none
  else if f.idx || f.mid || f.ring || f.pinky then none
  else
    let vx := (lm 4).x - (lm 1).x
    dirFromVx vx

/-- Source `isTwoFingers(lm)`. -/
def isTwoFingers (lm : HandPose) : Bool :=
  let f := fingerFlags lm
  !f.th && f.idx && f.mid && !f.ring && !f.pinky

/-- Source `isThreeFingers(lm)`. -/
def isThreeFingers (lm : HandPose) : Bool :=
  let f := fingerFlags lm
  !f.th && f.idx && f.mid && f.ring && !f.pinky

/-- Source `recognizeCommand(lm)`. -/
def recognizeCommand (lm : HandPose) : String :=
  if isOpenPalm lm then "Avanzar"
  else if isFist lm then "Retroceder"
  else if isOKSign lm then "Detener"
  else
    let idxDir := indexPointingDir lm
    if idxDir == some "RIGHT" then "Vuelta derecha"
    else if idxDir == some "LEFT" then "Vuelta izquierda"
    else
      let thDir := thumbPointingDir lm
      if thDir == some "RIGHT" then "90° derecha"
      else if thDir == some "LEFT" then "90° izquierda"
      else if isThreeFingers lm then "360° derecha"
      else if isTwoFingers lm then "360° izquierda"
      else "Orden no reconocida"

/-- Uniform translation of all 21 landmarks by `(dx, dy, dz)`. -/
def translate (dx dy dz : ℚ) (lm : HandPose) : HandPose :=
  fun i => { x := (lm i).x + dx, y := (lm i).y + dy, z := (lm i).z + dz }

/-! ## State -/

/-- The `detail` of a dispatched `control:command` event. -/
structure Event where
  source : String
  command : String
deriving DecidableEq, Repr

/-- The module level variables of `gestures.js`, the text of the
`commandText` element and the `control:command` events dispatched so far
(oldest first).  `null` is `none`. -/
structure State where
  running : Bool
  suspended : Bool
  lastGoodCommandAt : ℚ
  lastFrameSmall : Option (List Nat)
  lastRawCommand : Option String
  sameCount : Nat
  currentStableCommand : String
  commandText : String
  events : List Event
deriving DecidableEq

/-- What one run of `loop` reads from its environment: `performance.now()`,
the `data` bytes of the downsampled video frame (`getImageData`, read only
while suspended) and `result.landmarks` of the hand landmarker (empty when no
hand is detected). -/
structure FrameInput where
  now : ℚ
  img : List Nat
  landmarks : List HandPose

/-! ## Global event and UI helpers -/

/-- Source `emitGlobalCommand(command)`. -/
def emitGlobalCommand (st : State) (command : String) : State :=
  { st with events := st.events ++ [{ source := "gestos", command := command }] }

/-- Source `setModeUI(isSuspended)`; the badge and button texts are display
only. -/
def setModeUI (st : State) (isSuspended : Bool) : State :=
  { st with suspended := isSuspended }

/-- Source `setCommand(msg)`; `msg && msg !== "—"` is false for the empty
string and for the sentinel. -/
def setCommand (st : State) (msg : String) : State :=
  let st1 := { st with commandText := msg }
  if msg != "" && msg != "—" then emitGlobalCommand st1 msg else st1

/-! ## Motion detector and stabilizer -/

/-- The loop `for (let i = 0; i < img.data.length; i += 16) score +=
Math.abs(img.data[i] - lastFrameSmall.data[i])` of `computeMotionScore`,
entered at index `i` with the accumulated `score`; the first argument bounds
the number of iterations still allowed. -/
def motionLoop (img last : List Nat) : Nat → Nat → ℚ → ℚ
  | 0, _, score => score
  | fuel + 1, i, score =>
    if i < img.length then
      motionLoop img last fuel (i + 16)
        (score + |((img.getD i 0 : Nat) : ℚ) - ((last.getD i 0 : Nat) : ℚ)|)
    else score

/-- The accumulated `score` when the loop of `computeMotionScore` ends; the
index grows by 16 each round, so `img.data.length` rounds are enough
(`motionSum_eq_sum`). -/
def motionSum (img last : List Nat) : ℚ :=
  motionLoop img last img.length 0 0

/-- Source `computeMotionScore()`, with the frame bytes `img.data` passed in;
returns the new state and the score. -/
def computeMotionScore (st : State) (img : List Nat) : State × ℚ :=
  let score : ℚ :=
    match st.lastFrameSmall with
    | some last => motionSum img last / ((img.length : ℚ) / 16)
    | none => 0
  ({ st with lastFrameSmall := some img }, score)

/-- Source `stabilizeCommand(rawCommand)`; returns the new state and the
returned stable command. -/
def stabilizeCommand (st : State) (rawCommand : String) : State × String :=
  let st1 :=
    if some rawCommand = st.lastRawCommand then
      { st with sameCount := st.sameCount + 1 }
    else
      { st with lastRawCommand := some rawCommand, sameCount := 1 }
  let st2 :=
    if st1.sameCount ≥ STABLE_FRAMES then
      { st1 with currentStableCommand := rawCommand }
    else st1
  (st2, st2.currentStableCommand)

/-! ## Main loop -/

/-- The hand branch of `loop`: classify, stabilize, show, refresh the
activity timestamp. -/
def loopHand (st : State) (now : ℚ) (lm : HandPose) : State :=
  let rawCommand := recognizeCommand lm
  let r := stabilizeCommand st rawCommand
  let stableCommand := r.2
  let st1 := setCommand r.1 stableCommand
  if stableCommand != "Orden no reconocida" && stableCommand != "—" then
    { st1 with lastGoodCommandAt := now }
  else st1

/-- Source `loop()`: one frame step. -/
def loop (st : State) (f : FrameInput) : State :=
  if !st.running then st
  else
    let now := f.now
    if st.suspended then
      let r := computeMotionScore st f.img
      let motion := r.2
      if motion > MOTION_WAKE_THRESHOLD then
        let st1 := setModeUI r.1 false
        let st2 := { st1 with lastGoodCommandAt := now }
        let st3 := setCommand st2 "—"
        { st3 with lastRawCommand := none, sameCount := 0, currentStableCommand := "—" }
      else r.1
    else
      let st1 :=
        match f.landmarks with
        | lm :: _ => loopHand st now lm
        | [] => st
      if now - st1.lastGoodCommandAt > SUSPEND_AFTER_MS then setModeUI st1 true
      else st1

/-! ## UI handlers and initial state -/

/-- The state after the module has been evaluated: the declared initial
values followed by `setModeUI(false)` and `setCommand("—")`. -/
def init : State :=
  setCommand
    (setModeUI
      { running := false, suspended := false, lastGoodCommandAt := 0,
        lastFrameSmall := none, lastRawCommand := none, sameCount := 0,
        currentStableCommand := "—", commandText := "", events := [] }
      false)
    "—"

/-- The `btnStart` click handler once camera and model are available, at
`performance.now() = now`. -/
def btnStartClick (st : State) (now : ℚ) : State :=
  let st1 := { st with running := true }
  let st2 := setModeUI st1 false
  { st2 with lastGoodCommandAt := now, lastRawCommand := none, sameCount := 0,
             currentStableCommand := "—" }

/-- The `btnStop` click handler. -/
def btnStopClick (st : State) : State :=
  setCommand { st with running := false } "—"

/-- The `btnToggleSuspend` click handler. -/
def btnToggleSuspendClick (st : State) : State :=
  if !st.running then st else setModeUI st (!st.suspended)

/-! ## Repeated feeding of the stabilizer -/

/-- The state after `k` consecutive calls `stabilizeCommand(c)`. -/
def feed (c : String) : Nat → State → State
  | 0, st => st
  | k + 1, st => (stabilizeCommand (feed c k st) c).1

/-- The value returned by call number `k` (counted from 1) of `k`
consecutive calls `stabilizeCommand(c)`. -/
def feedOut (c : String) (k : Nat) (st : State) : String :=
  (stabilizeCommand (feed c (k - 1) st) c).2

/-- Runs `loop` over a list of frame inputs, first to last. -/
def runFrames (st : State) (fs : List FrameInput) : State :=
  fs.foldl loop st

/-- Whether the frame shows a hand and the stable command returned for it is
neither "Orden no reconocida" nor the sentinel "—": the condition under which
`loop` refreshes `lastGoodCommandAt`. -/
def validStable (st : State) (f : FrameInput) : Bool :=
  match f.landmarks with
  | lm :: _ =>
    let s := (stabilizeCommand st (recognizeCommand lm)).2
    s != "Orden no reconocida" && s != "—"
  | [] => false

/-! ## Sample poses, frames and states -/

/-- A pose with the wrist at `(0.5, 0.9)`, the index knuckle at `(0.5, 0.6)`
and the four finger joints 6, 10, 14, 18 at height `0.5`; the thumb base,
thumb tip, index tip and the heights of the middle, ring and pinky tips are
given. -/
def samplePose (thumbBase thumbTip indexTip : ℚ × ℚ) (midTipY ringTipY pinkyTipY : ℚ) :
    HandPose :=
  fun i =>
    match i.val with
    | 0 => ⟨0.5, 0.9, 0⟩
    | 1 => ⟨thumbBase.1, thumbBase.2, 0⟩
    | 4 => ⟨thumbTip.1, thumbTip.2, 0⟩
    | 5 => ⟨0.5, 0.6, 0⟩
    | 6 => ⟨0.5, 0.5, 0⟩
    | 8 => ⟨indexTip.1, indexTip.2, 0⟩
    | 10 => ⟨0.55, 0.5, 0⟩
    | 12 => ⟨0.55, midTipY, 0⟩
    | 14 => ⟨0.6, 0.5, 0⟩
    | 16 => ⟨0.6, ringTipY, 0⟩
    | 18 => ⟨0.65, 0.5, 0⟩
    | 20 => ⟨0.65, pinkyTipY, 0⟩
    | _ => ⟨0.5, 0.7, 0⟩

/-- Open hand, thumb spread to the side. -/
def openPalmPose : HandPose := samplePose (0.4, 0.8) (0.3, 0.6) (0.5, 0.3) 0.3 0.3 0.3

/-- Closed fist. -/
def fistPose : HandPose := samplePose (0.45, 0.8) (0.5, 0.62) (0.5, 0.55) 0.55 0.55 0.55

/-- Open hand whose thumb tip lies next to the index tip. -/
def palmOKPose : HandPose := samplePose (0.45, 0.8) (0.5, 0.3) (0.5, 0.32) 0.3 0.3 0.3

/-- Only the index raised, its tip displaced by `d` from the knuckle. -/
def indexPose (d : ℚ) : HandPose :=
  samplePose (0.45, 0.8) (0.5, 0.62) (0.5 + d, 0.3) 0.55 0.55 0.55

/-- Only the thumb out, its tip displaced by `d` from its base. -/
def thumbPose (d : ℚ) : HandPose :=
  samplePose (0.3, 0.8) (0.3 + d, 0.7) (0.5, 0.55) 0.55 0.55 0.55

/-- Index, middle and ring raised, thumb tip touching the index tip. -/
def threeOKPose : HandPose := samplePose (0.45, 0.8) (0.5, 0.5) (0.5, 0.45) 0.3 0.3 0.55

/-- Index and middle raised, thumb tip touching the index tip. -/
def twoOKPose : HandPose := samplePose (0.45, 0.8) (0.5, 0.5) (0.5, 0.45) 0.3 0.55 0.55

/-- Index, middle and ring raised, thumb tucked away from the index tip. -/
def threePose : HandPose := samplePose (0.45, 0.8) (0.5, 0.62) (0.5, 0.3) 0.3 0.3 0.55

/-- Index and middle raised, thumb tucked away from the index tip. -/
def twoPose : HandPose := samplePose (0.45, 0.8) (0.5, 0.62) (0.5, 0.3) 0.3 0.55 0.55

/-- A frame at time `t` in which the landmarker reports the hand `lm`. -/
def handFrame (t : ℚ) (lm : HandPose) : FrameInput :=
  { now := t, img := [], landmarks := [lm] }

/-- A frame at time `t` in which the landmarker reports no hand. -/
def noHandFrame (t : ℚ) : FrameInput :=
  { now := t, img := [], landmarks := [] }

/-- Start at time 0 followed by two open-palm frames. -/
def palmTwice : State :=
  runFrames (btnStartClick init 0) [handFrame 16 openPalmPose, handFrame 32 openPalmPose]

/-- Start at time 0 followed by three open-palm frames. -/
def palmThrice : State :=
  runFrames (btnStartClick init 0)
    [handFrame 16 openPalmPose, handFrame 32 openPalmPose, handFrame 48 openPalmPose]

/-- A running, active state whose stable command "Avanzar" was last
confirmed at time 1000. -/
def idleState : State :=
  { running := true, suspended := false, lastGoodCommandAt := 1000, lastFrameSmall := none,
    lastRawCommand := some "Avanzar", sameCount := 3, currentStableCommand := "Avanzar",
    commandText := "Avanzar", events := [⟨"gestos", "Avanzar"⟩] }


/-! ## Histories of the stabilizer and of the loop -/

/-- The state after the calls `stabilizeCommand(r)` for `r` in `rs`, first to
last. -/
def feedAll (st : State) (rs : List String) : State :=
  rs.foldl (fun s r => (stabilizeCommand s r).1) st

/-- The raw commands classified in a list of frames processed while active:
one per frame that shows a hand, in order. -/
def rawsOf : List FrameInput → List String
  | [] => []
  | f :: fs =>
    match f.landmarks with
    | lm :: _ => recognizeCommand lm :: rawsOf fs
    | [] => rawsOf fs

/-- Whether every frame of the list is processed in active mode when the
frames are run from `st`. -/
def allActive : State → List FrameInput → Bool
  | _, [] => true
  | st, f :: fs => !st.suspended && allActive (loop st f) fs

/-- What the stabilizer fields of `s` record about the raw commands `rs` fed
since the stabilizer was empty: the last raw command is the last one fed, the
last `sameCount` of them are equal, a count of 3 or more makes the last raw
command stable, and the stable command is the sentinel or was fed three times
in a row. -/
def StabInv (rs : List String) (s : State) : Prop :=
  (rs = [] → s.lastRawCommand = none ∧ s.sameCount = 0) ∧
  (rs ≠ [] → 1 ≤ s.sameCount ∧ s.lastRawCommand = rs.getLast?) ∧
  (∀ k, 1 ≤ k → k ≤ s.sameCount →
    ∃ p c, rs = p ++ List.replicate k c ∧ s.lastRawCommand = some c) ∧
  (3 ≤ s.sameCount → s.lastRawCommand = some s.currentStableCommand) ∧
  (s.currentStableCommand = "—" ∨
    ∃ p q, rs = p ++ [s.currentStableCommand, s.currentStableCommand,
      s.currentStableCommand] ++ q)

/-! ## Sample frames and states for the suspended mode -/

/-- A downsampled frame of 16 bytes whose first byte is `b`. -/
def tinyImg (b : Nat) : List Nat := b :: List.replicate 15 0

/-- A frame at time `t` whose downsampled image is `tinyImg b`. -/
def imgFrame (t : ℚ) (b : Nat) : FrameInput :=
  { now := t, img := tinyImg b, landmarks := [] }

/-- Start at time 0, three open-palm frames, a frame without a hand at time
4000 (which suspends) and a dark frame seen while suspended. -/
def sleepState : State :=
  runFrames palmThrice [noHandFrame 4000, imgFrame 4016 0]

/-- The state `sleepState` woken by a bright frame at time 5000. -/
def wokenState : State := loop sleepState (imgFrame 5000 255)

/-- The state after Start at time `t0` followed by `k` closed-fist frames,
for `k = 1, 2`: the raw command "Retroceder" is held with count `k`, nothing
is stable or published yet. -/
def pendingFist (st : State) (t0 : ℚ) (k : Nat) : State :=
  { btnStartClick st t0 with
    lastRawCommand := some "Retroceder", sameCount := k, commandText := "—" }

/-! ## Commands and reachable states -/

/-- The ten command labels returned by `recognizeCommand`. -/
def commandLabels : List String :=
  ["Avanzar", "Retroceder", "Detener", "Vuelta derecha", "Vuelta izquierda",
   "90° derecha", "90° izquierda", "360° derecha", "360° izquierda", "Orden no reconocida"]

/-- The states the page can be in: the state after the module is evaluated,
and what the three click handlers and `loop` make of a reachable state. -/
inductive Reachable : State → Prop
  | init : Reachable init
  | start (st : State) (now : ℚ) : Reachable st → Reachable (btnStartClick st now)
  | stop (st : State) : Reachable st → Reachable (btnStopClick st)
  | toggle (st : State) : Reachable st → Reachable (btnToggleSuspendClick st)
  | frame (st : State) (f : FrameInput) : Reachable st → Reachable (loop st f)

/-! ## The squared-distance tests are the `Math.hypot` tests -/

/-- The embedded test `distGt a b t` is `t < hypot(a.x - b.x, a.y - b.y)`
over the reals, for a threshold `t ≥ 0`. -/
theorem distGt_iff_sqrt (a b : Landmark) (t : ℚ) (ht : 0 ≤ t) :
    distGt a b t = true ↔
      (t : ℝ) < Real.sqrt (((a.x - b.x : ℚ) : ℝ) ^ 2 + ((a.y - b.y : ℚ) : ℝ) ^ 2) := by
  have ht' : (0 : ℝ) ≤ (t : ℝ) := by exact_mod_cast ht
  rw [Real.lt_sqrt ht']
  simp only [distGt, distSq, decide_eq_true_eq, gt_iff_lt]
  constructor
  · intro h
    have h' : ((t * t : ℚ) : ℝ) <
        (((a.x - b.x) * (a.x - b.x) + (a.y - b.y) * (a.y - b.y) : ℚ) : ℝ) := by
      exact_mod_cast h
    push_cast at h' ⊢
    nlinarith [h']
  · intro h
    have h' : ((t * t : ℚ) : ℝ) <
        (((a.x - b.x) * (a.x - b.x) + (a.y - b.y) * (a.y - b.y) : ℚ) : ℝ) := by
      push_cast at h ⊢
      nlinarith [h]
    exact_mod_cast h'

/-- The embedded test `distLt a b t` is `hypot(a.x - b.x, a.y - b.y) < t`
over the reals, for a threshold `t > 0`. -/
theorem distLt_iff_sqrt (a b : Landmark) (t : ℚ) (ht : 0 < t) :
    distLt a b t = true ↔
      Real.sqrt (((a.x - b.x : ℚ) : ℝ) ^ 2 + ((a.y - b.y : ℚ) : ℝ) ^ 2) < (t : ℝ) := by
  have ht' : (0 : ℝ) < (t : ℝ) := by exact_mod_cast ht
  rw [Real.sqrt_lt' ht']
  simp only [distLt, distSq, decide_eq_true_eq]
  constructor
  · intro h
    have h' : (((a.x - b.x) * (a.x - b.x) + (a.y - b.y) * (a.y - b.y) : ℚ) : ℝ) <
        ((t * t : ℚ) : ℝ) := by
      exact_mod_cast h
    push_cast at h' ⊢
    nlinarith [h']
  · intro h
    have h' : (((a.x - b.x) * (a.x - b.x) + (a.y - b.y) * (a.y - b.y) : ℚ) : ℝ) <
        ((t * t : ℚ) : ℝ) := by
      push_cast at h ⊢
      nlinarith [h]
    exact_mod_cast h'

/-! ## Classifier: flags and the first two rules -/

/-- `isOpenPalm` holds exactly when all five flags are set. -/
theorem isOpenPalm_iff (lm : HandPose) :
    isOpenPalm lm = true ↔ fingerFlags lm = ⟨true, true, true, true, true⟩ := by
  unfold isOpenPalm countExtendedFingers
  generalize fingerFlags lm = f
  rcases f with ⟨a, b, c, d, e⟩
  cases a <;> cases b <;> cases c <;> cases d <;> cases e <;> decide

/-- `isFist` holds exactly when all five flags are clear. -/
theorem isFist_iff (lm : HandPose) :
    isFist lm = true ↔ fingerFlags lm = ⟨false, false, false, false, false⟩ := by
  unfold isFist
  generalize fingerFlags lm = f
  rcases f with ⟨a, b, c, d, e⟩
  cases a <;> cases b <;> cases c <;> cases d <;> cases e <;> decide

/-- The five flags, read off componentwise. -/
theorem fingerFlags_eq_iff (lm : HandPose) (a b c d e : Bool) :
    fingerFlags lm = ⟨a, b, c, d, e⟩ ↔
      thumbExtended lm = a ∧ fingerExtended lm 8 6 = b ∧ fingerExtended lm 12 10 = c ∧
        fingerExtended lm 16 14 = d ∧ fingerExtended lm 20 18 = e := by
  simp [fingerFlags]

/-- C1: a pose whose five finger flags are all extended is classified
"Avanzar", and a pose whose five flags are all retracted is classified
"Retroceder". -/
theorem recognize_palm_and_fist (lm : HandPose) :
    (fingerFlags lm = ⟨true, true, true, true, true⟩ → recognizeCommand lm = "Avanzar") ∧
    (fingerFlags lm = ⟨false, false, false, false, false⟩ →
      recognizeCommand lm = "Retroceder") := by
  constructor
  · intro h
    have := (isOpenPalm_iff lm).2 h
    simp [recognizeCommand, this]
  · intro h
    have h1 : isOpenPalm lm = false := by
      rw [Bool.eq_false_iff, Ne, isOpenPalm_iff, h]; decide
    have h2 := (isFist_iff lm).2 h
    simp [recognizeCommand, h1, h2]

/-- C1 at the open hand and at the closed fist. -/
theorem recognize_palm_and_fist_witness :
    fingerFlags openPalmPose = ⟨true, true, true, true, true⟩ ∧
    recognizeCommand openPalmPose = "Avanzar" ∧
    fingerFlags fistPose = ⟨false, false, false, false, false⟩ ∧
    recognizeCommand fistPose = "Retroceder" :=
  have h1 : fingerFlags openPalmPose = ⟨true, true, true, true, true⟩ := by decide!
  have h2 : fingerFlags fistPose = ⟨false, false, false, false, false⟩ := by decide!
  ⟨h1, (recognize_palm_and_fist openPalmPose).1 h1, h2,
    (recognize_palm_and_fist fistPose).2 h2⟩

/-! ## Classifier: translation invariance -/

/-- The squared distance between two landmarks is unchanged by translation. -/
theorem distSq_translate (dx dy dz : ℚ) (lm : HandPose) (i j : Fin 21) :
    distSq (translate dx dy dz lm i) (translate dx dy dz lm j) = distSq (lm i) (lm j) := by
  simp only [distSq, translate]
  ring

/-- The finger test compares two heights and is unchanged by translation. -/
theorem fingerExtended_translate (dx dy dz : ℚ) (lm : HandPose) (i j : Fin 21) :
    fingerExtended (translate dx dy dz lm) i j = fingerExtended lm i j := by
  simp [fingerExtended, translate]

/-- The five flags are unchanged by translation. -/
theorem fingerFlags_translate (dx dy dz : ℚ) (lm : HandPose) :
    fingerFlags (translate dx dy dz lm) = fingerFlags lm := by
  simp only [fingerFlags, thumbExtended, distGt, distSq_translate, fingerExtended_translate]

/-- The OK-sign test is unchanged by translation. -/
theorem isOKSign_translate (dx dy dz : ℚ) (lm : HandPose) :
    isOKSign (translate dx dy dz lm) = isOKSign lm := by
  simp only [isOKSign, distLt, distSq_translate, fingerExtended_translate]

/-- Horizontal displacements are unchanged by translation. -/
theorem x_sub_translate (dx dy dz : ℚ) (lm : HandPose) (i j : Fin 21) :
    (translate dx dy dz lm i).x - (translate dx dy dz lm j).x = (lm i).x - (lm j).x := by
  simp [translate]

/-- C2: adding one offset `(dx, dy, dz)` to all 21 landmarks does not change
the recognized command (coordinates as exact rationals). -/
theorem recognize_translate (dx dy dz : ℚ) (lm : HandPose) :
    recognizeCommand (translate dx dy dz lm) = recognizeCommand lm := by
  simp only [recognizeCommand, isOpenPalm, countExtendedFingers, isFist, indexPointingDir,
    thumbPointingDir, isThreeFingers, isTwoFingers, fingerFlags_translate, isOKSign_translate,
    x_sub_translate]

/-! ## Classifier: rule order and the OK sign -/

/-- C3: some pose passes both the open-palm test and the OK-sign test, and
every such pose is classified "Avanzar", not "Detener". -/
theorem palm_precedes_ok_sign :
    (∃ lm : HandPose, fingerFlags lm = ⟨true, true, true, true, true⟩ ∧ isOKSign lm = true) ∧
    (∀ lm : HandPose, fingerFlags lm = ⟨true, true, true, true, true⟩ → isOKSign lm = true →
      recognizeCommand lm = "Avanzar" ∧ recognizeCommand lm ≠ "Detener") := by
  refine ⟨⟨palmOKPose, by decide!, by decide!⟩, ?_⟩
  intro lm hf _
  have h := (isOpenPalm_iff lm).2 hf
  have hr : recognizeCommand lm = "Avanzar" := by simp [recognizeCommand, h]
  rw [hr]
  exact ⟨rfl, by decide⟩

/-- C3 at the open hand whose thumb tip lies next to the index tip. -/
theorem palm_precedes_ok_sign_witness :
    fingerFlags palmOKPose = ⟨true, true, true, true, true⟩ ∧ isOKSign palmOKPose = true ∧
      recognizeCommand palmOKPose = "Avanzar" :=
  have hf : fingerFlags palmOKPose = ⟨true, true, true, true, true⟩ := by decide!
  have hok : isOKSign palmOKPose = true := by decide!
  ⟨hf, hok, (palm_precedes_ok_sign.2 palmOKPose hf hok).1⟩

/-- C4: a pose that is not an open palm, whose thumb tip is closer than 0.06
to the index tip and which has the middle, ring or pinky extended, is
classified "Detener". -/
theorem recognize_ok_sign (lm : HandPose)
    (hpalm : fingerFlags lm ≠ ⟨true, true, true, true, true⟩)
    (hclose : distLt (lm 4) (lm 8) 0.06 = true)
    (hany : (fingerFlags lm).mid = true ∨ (fingerFlags lm).ring = true ∨
      (fingerFlags lm).pinky = true) :
    recognizeCommand lm = "Detener" := by
  have h1 : isOpenPalm lm = false := by
    rw [Bool.eq_false_iff, Ne, isOpenPalm_iff]; exact hpalm
  have h2 : isFist lm = false := by
    rw [Bool.eq_false_iff, Ne, isFist_iff]
    intro h
    rw [h] at hany
    simp at hany
  have h3 : isOKSign lm = true := by
    simp only [fingerFlags] at hany
    simp only [isOKSign, hclose, Bool.true_and, Bool.or_eq_true]
    tauto
  simp [recognizeCommand, h1, h2, h3]

/-- C4 at a pose with index, middle and ring raised and the thumb tip on the
index tip. -/
theorem recognize_ok_sign_witness :
    fingerFlags threeOKPose ≠ ⟨true, true, true, true, true⟩ ∧
    distLt (threeOKPose 4) (threeOKPose 8) 0.06 = true ∧
    (fingerFlags threeOKPose).mid = true ∧
    recognizeCommand threeOKPose = "Detener" :=
  have h1 : fingerFlags threeOKPose ≠ ⟨true, true, true, true, true⟩ := by decide!
  have h2 : distLt (threeOKPose 4) (threeOKPose 8) 0.06 = true := by decide!
  have h3 : (fingerFlags threeOKPose).mid = true := by decide!
  ⟨h1, h2, h3, recognize_ok_sign threeOKPose h1 h2 (Or.inl h3)⟩

/-! ## Classifier: pointing rules -/

/-- A displacement of at least 0.08 is reported, mirrored, as "LEFT". -/
theorem dirFromVx_pos (vx : ℚ) (h : 0.08 ≤ vx) : dirFromVx vx = some "LEFT" := by
  have h0 : (0 : ℚ) < vx := lt_of_lt_of_le (by norm_num) h
  have h1 : ¬ |vx| < 0.08 := by rw [abs_of_pos h0]; exact not_lt.mpr h
  simp [dirFromVx, h1, h0, MIRRORED_VIEW]

/-- A displacement of at most -0.08 is reported, mirrored, as "RIGHT". -/
theorem dirFromVx_neg (vx : ℚ) (h : vx ≤ -0.08) : dirFromVx vx = some "RIGHT" := by
  have h0 : vx < 0 := lt_of_le_of_lt h (by norm_num)
  have h1 : ¬ |vx| < 0.08 := by rw [abs_of_neg h0]; intro h2; linarith
  have h2 : ¬ (0 < vx) := not_lt.mpr h0.le
  simp [dirFromVx, h1, h2, MIRRORED_VIEW]

/-- A displacement of magnitude below 0.08 gives no direction. -/
theorem dirFromVx_dead (vx : ℚ) (h : |vx| < 0.08) : dirFromVx vx = none := by
  simp [dirFromVx, h]

/-- With only the index extended the command is decided by the direction of
the index tip relative to its knuckle. -/
theorem recognize_index_only (lm : HandPose)
    (hf : fingerFlags lm = ⟨false, true, false, false, false⟩) :
    recognizeCommand lm =
      if dirFromVx ((lm 8).x - (lm 5).x) = some "RIGHT" then "Vuelta derecha"
      else if dirFromVx ((lm 8).x - (lm 5).x) = some "LEFT" then "Vuelta izquierda"
      else "Orden no reconocida" := by
  obtain ⟨_, _, hm, hr, hk⟩ := (fingerFlags_eq_iff lm _ _ _ _ _).1 hf
  have h1 : isOpenPalm lm = false := by simp [isOpenPalm, countExtendedFingers, hf]
  have h2 : isFist lm = false := by simp [isFist, hf]
  have h3 : isOKSign lm = false := by simp [isOKSign, hm, hr, hk]
  have h4 : indexPointingDir lm = dirFromVx ((lm 8).x - (lm 5).x) := by
    simp [indexPointingDir, hf]
  have h5 : thumbPointingDir lm = none := by simp [thumbPointingDir, hf]
  have h6 : isThreeFingers lm = false := by simp [isThreeFingers, hf]
  have h7 : isTwoFingers lm = false := by simp [isTwoFingers, hf]
  simp [recognizeCommand, h1, h2, h3, h4, h5, h6, h7]

/-- C5: with the index extended and the other four flags retracted, and
`d = tip8.x - base5.x`, the command is "Vuelta izquierda" when `d ≥ 0.08`,
"Vuelta derecha" when `d ≤ -0.08` and "Orden no reconocida" when
`|d| < 0.08`. -/
theorem recognize_index_pointing (lm : HandPose)
    (hf : fingerFlags lm = ⟨false, true, false, false, false⟩) :
    (0.08 ≤ (lm 8).x - (lm 5).x → recognizeCommand lm = "Vuelta izquierda") ∧
    ((lm 8).x - (lm 5).x ≤ -0.08 → recognizeCommand lm = "Vuelta derecha") ∧
    (|(lm 8).x - (lm 5).x| < 0.08 → recognizeCommand lm = "Orden no reconocida") := by
  rw [recognize_index_only lm hf]
  refine ⟨fun h => ?_, fun h => ?_, fun h => ?_⟩
  · rw [dirFromVx_pos _ h]; decide
  · rw [dirFromVx_neg _ h]; decide
  · rw [dirFromVx_dead _ h]; decide

/-- C5 at index poses displaced by 0.1, by -0.1 and by 0.05. -/
theorem recognize_index_pointing_witness :
    (fingerFlags (indexPose 0.1) = ⟨false, true, false, false, false⟩ ∧
      recognizeCommand (indexPose 0.1) = "Vuelta izquierda") ∧
    (fingerFlags (indexPose (-0.1)) = ⟨false, true, false, false, false⟩ ∧
      recognizeCommand (indexPose (-0.1)) = "Vuelta derecha") ∧
    (fingerFlags (indexPose 0.05) = ⟨false, true, false, false, false⟩ ∧
      recognizeCommand (indexPose 0.05) = "Orden no reconocida") :=
  have h1 : fingerFlags (indexPose 0.1) = ⟨false, true, false, false, false⟩ := by decide!
  have h2 : fingerFlags (indexPose (-0.1)) = ⟨false, true, false, false, false⟩ := by decide!
  have h3 : fingerFlags (indexPose 0.05) = ⟨false, true, false, false, false⟩ := by decide!
  ⟨⟨h1, (recognize_index_pointing _ h1).1 (by decide!)⟩,
   ⟨h2, (recognize_index_pointing _ h2).2.1 (by decide!)⟩,
   ⟨h3, (recognize_index_pointing _ h3).2.2 (by decide!)⟩⟩

/-- With only the thumb extended the command is decided by the direction of
the thumb tip relative to its base. -/
theorem recognize_thumb_only (lm : HandPose)
    (hf : fingerFlags lm = ⟨true, false, false, false, false⟩) :
    recognizeCommand lm =
      if dirFromVx ((lm 4).x - (lm 1).x) = some "RIGHT" then "90° derecha"
      else if dirFromVx ((lm 4).x - (lm 1).x) = some "LEFT" then "90° izquierda"
      else "Orden no reconocida" := by
  obtain ⟨_, _, hm, hr, hk⟩ := (fingerFlags_eq_iff lm _ _ _ _ _).1 hf
  have h1 : isOpenPalm lm = false := by simp [isOpenPalm, countExtendedFingers, hf]
  have h2 : isFist lm = false := by simp [isFist, hf]
  have h3 : isOKSign lm = false := by simp [isOKSign, hm, hr, hk]
  have h4 : indexPointingDir lm = none := by simp [indexPointingDir, hf]
  have h5 : thumbPointingDir lm = dirFromVx ((lm 4).x - (lm 1).x) := by
    simp [thumbPointingDir, hf]
  have h6 : isThreeFingers lm = false := by simp [isThreeFingers, hf]
  have h7 : isTwoFingers lm = false := by simp [isTwoFingers, hf]
  simp [recognizeCommand, h1, h2, h3, h4, h5, h6, h7]

/-- C6: with the thumb extended and the other four flags retracted, and
`d = tip4.x - point1.x`, the command is "90° izquierda" when `d ≥ 0.08`,
"90° derecha" when `d ≤ -0.08` and "Orden no reconocida" when `|d| < 0.08`. -/
theorem recognize_thumb_pointing (lm : HandPose)
    (hf : fingerFlags lm = ⟨true, false, false, false, false⟩) :
    (0.08 ≤ (lm 4).x - (lm 1).x → recognizeCommand lm = "90° izquierda") ∧
    ((lm 4).x - (lm 1).x ≤ -0.08 → recognizeCommand lm = "90° derecha") ∧
    (|(lm 4).x - (lm 1).x| < 0.08 → recognizeCommand lm = "Orden no reconocida") := by
  rw [recognize_thumb_only lm hf]
  refine ⟨fun h => ?_, fun h => ?_, fun h => ?_⟩
  · rw [dirFromVx_pos _ h]; decide
  · rw [dirFromVx_neg _ h]; decide
  · rw [dirFromVx_dead _ h]; decide

/-- C6 at thumb poses displaced by 0.1, by -0.1 and by 0.05. -/
theorem recognize_thumb_pointing_witness :
    (fingerFlags (thumbPose 0.1) = ⟨true, false, false, false, false⟩ ∧
      recognizeCommand (thumbPose 0.1) = "90° izquierda") ∧
    (fingerFlags (thumbPose (-0.1)) = ⟨true, false, false, false, false⟩ ∧
      recognizeCommand (thumbPose (-0.1)) = "90° derecha") ∧
    (fingerFlags (thumbPose 0.05) = ⟨true, false, false, false, false⟩ ∧
      recognizeCommand (thumbPose 0.05) = "Orden no reconocida") :=
  have h1 : fingerFlags (thumbPose 0.1) = ⟨true, false, false, false, false⟩ := by decide!
  have h2 : fingerFlags (thumbPose (-0.1)) = ⟨true, false, false, false, false⟩ := by decide!
  have h3 : fingerFlags (thumbPose 0.05) = ⟨true, false, false, false, false⟩ := by decide!
  ⟨⟨h1, (recognize_thumb_pointing _ h1).1 (by decide!)⟩,
   ⟨h2, (recognize_thumb_pointing _ h2).2.1 (by decide!)⟩,
   ⟨h3, (recognize_thumb_pointing _ h3).2.2 (by decide!)⟩⟩

/-! ## Classifier: three-finger and two-finger rules -/

/-- C7, as stated, fails: a pose with exactly index, middle and ring extended
and a pose with exactly index and middle extended, each with the thumb tip
touching the index tip, are both classified "Detener". -/
theorem finger_count_rules_counterexample :
    (fingerFlags threeOKPose = ⟨false, true, true, true, false⟩ ∧
      recognizeCommand threeOKPose = "Detener" ∧
      recognizeCommand threeOKPose ≠ "360° derecha") ∧
    (fingerFlags twoOKPose = ⟨false, true, true, false, false⟩ ∧
      recognizeCommand twoOKPose = "Detener" ∧
      recognizeCommand twoOKPose ≠ "360° izquierda") := by
  decide!

/-- C7 amended: with exactly index, middle and ring extended the command is
"360° derecha", and with exactly index and middle extended it is
"360° izquierda", provided the thumb tip is not closer than 0.06 to the index
tip; when it is closer the OK-sign rule comes first and the command is
"Detener". -/
theorem recognize_three_two_fingers (lm : HandPose) :
    (fingerFlags lm = ⟨false, true, true, true, false⟩ →
      recognizeCommand lm =
        if distLt (lm 4) (lm 8) 0.06 = true then "Detener" else "360° derecha") ∧
    (fingerFlags lm = ⟨false, true, true, false, false⟩ →
      recognizeCommand lm =
        if distLt (lm 4) (lm 8) 0.06 = true then "Detener" else "360° izquierda") := by
  constructor
  · intro hf
    obtain ⟨_, _, hm, hr, hk⟩ := (fingerFlags_eq_iff lm _ _ _ _ _).1 hf
    have h1 : isOpenPalm lm = false := by simp [isOpenPalm, countExtendedFingers, hf]
    have h2 : isFist lm = false := by simp [isFist, hf]
    have h3 : isOKSign lm = distLt (lm 4) (lm 8) 0.06 := by simp [isOKSign, hm, hr, hk]
    have h4 : indexPointingDir lm = none := by simp [indexPointingDir, hf]
    have h5 : thumbPointingDir lm = none := by simp [thumbPointingDir, hf]
    have h6 : isThreeFingers lm = true := by simp [isThreeFingers, hf]
    simp [recognizeCommand, h1, h2, h3, h4, h5, h6]
  · intro hf
    obtain ⟨_, _, hm, hr, hk⟩ := (fingerFlags_eq_iff lm _ _ _ _ _).1 hf
    have h1 : isOpenPalm lm = false := by simp [isOpenPalm, countExtendedFingers, hf]
    have h2 : isFist lm = false := by simp [isFist, hf]
    have h3 : isOKSign lm = distLt (lm 4) (lm 8) 0.06 := by simp [isOKSign, hm, hr, hk]
    have h4 : indexPointingDir lm = none := by simp [indexPointingDir, hf]
    have h5 : thumbPointingDir lm = none := by simp [thumbPointingDir, hf]
    have h6 : isThreeFingers lm = false := by simp [isThreeFingers, hf]
    have h7 : isTwoFingers lm = true := by simp [isTwoFingers, hf]
    simp [recognizeCommand, h1, h2, h3, h4, h5, h6, h7]

/-- C7 amended, at a three-finger and a two-finger pose with the thumb tucked
away from the index tip. -/
theorem recognize_three_two_fingers_witness :
    (fingerFlags threePose = ⟨false, true, true, true, false⟩ ∧
      distLt (threePose 4) (threePose 8) 0.06 = false ∧
      recognizeCommand threePose = "360° derecha") ∧
    (fingerFlags twoPose = ⟨false, true, true, false, false⟩ ∧
      distLt (twoPose 4) (twoPose 8) 0.06 = false ∧
      recognizeCommand twoPose = "360° izquierda") :=
  have h3 : fingerFlags threePose = ⟨false, true, true, true, false⟩ := by decide!
  have h2 : fingerFlags twoPose = ⟨false, true, true, false, false⟩ := by decide!
  have d3 : distLt (threePose 4) (threePose 8) 0.06 = false := by decide!
  have d2 : distLt (twoPose 4) (twoPose 8) 0.06 = false := by decide!
  ⟨⟨h3, d3, by rw [(recognize_three_two_fingers threePose).1 h3, d3]; decide⟩,
   ⟨h2, d2, by rw [(recognize_three_two_fingers twoPose).2 h2, d2]; decide⟩⟩

/-! ## Stabilizer -/

/-- A call with the raw command already held increments the count. -/
theorem stabilize_same (st : State) (c : String) (h : st.lastRawCommand = some c) :
    stabilizeCommand st c =
      (if st.sameCount + 1 ≥ STABLE_FRAMES then
          { st with sameCount := st.sameCount + 1, currentStableCommand := c }
        else { st with sameCount := st.sameCount + 1 },
       if st.sameCount + 1 ≥ STABLE_FRAMES then c else st.currentStableCommand) := by
  simp only [stabilizeCommand, h, if_true]
  split <;> rfl

/-- A call with a new raw command records it with count 1 and keeps the
stable command. -/
theorem stabilize_diff (st : State) (c : String) (h : st.lastRawCommand ≠ some c) :
    stabilizeCommand st c =
      ({ st with lastRawCommand := some c, sameCount := 1 }, st.currentStableCommand) := by
  have h2 : ¬ (some c = st.lastRawCommand) := fun e => h e.symm
  simp [stabilizeCommand, h2, STABLE_FRAMES]

/-- The returned value is the stable command of the new state. -/
theorem stabilize_snd (st : State) (c : String) :
    (stabilizeCommand st c).2 = (stabilizeCommand st c).1.currentStableCommand := rfl

/-- After a call the last raw command is the value fed. -/
theorem stabilize_lastRaw (st : State) (c : String) :
    (stabilizeCommand st c).1.lastRawCommand = some c := by
  by_cases h : st.lastRawCommand = some c
  · rw [stabilize_same st c h]; split <;> exact h
  · rw [stabilize_diff st c h]

/-- After a call the repeat count is positive. -/
theorem stabilize_count_pos (st : State) (c : String) :
    1 ≤ (stabilizeCommand st c).1.sameCount := by
  by_cases h : st.lastRawCommand = some c
  · rw [stabilize_same st c h]; split <;> simp
  · rw [stabilize_diff st c h]

/-- The stabilizer leaves the mode and the activity timestamp alone. -/
theorem stabilize_frame (st : State) (c : String) :
    (stabilizeCommand st c).1.running = st.running ∧
    (stabilizeCommand st c).1.suspended = st.suspended ∧
    (stabilizeCommand st c).1.lastGoodCommandAt = st.lastGoodCommandAt := by
  unfold stabilizeCommand
  simp only
  split <;> split <;> simp

/-- After at least one feed of `c` the last raw command is `c`. -/
theorem feed_lastRaw (c : String) (k : Nat) (st : State) :
    (feed c (k + 1) st).lastRawCommand = some c := stabilize_lastRaw _ c

/-- Feeding `c` to a state that held another raw command: after `k + 1`
feeds the count is `k + 1` and the stable command has switched to `c` exactly
when `k + 1` reached `STABLE_FRAMES`. -/
theorem feed_count_fresh (c : String) (st : State) (h : st.lastRawCommand ≠ some c)
    (k : Nat) :
    (feed c (k + 1) st).sameCount = k + 1 ∧
      (feed c (k + 1) st).currentStableCommand =
        if k + 1 ≥ STABLE_FRAMES then c else st.currentStableCommand := by
  induction k with
  | zero =>
    simp only [feed]
    rw [stabilize_diff st c h]
    simp [STABLE_FRAMES]
  | succ n ih =>
    have hl := feed_lastRaw c n st
    have hs : feed c (n + 1 + 1) st = (stabilizeCommand (feed c (n + 1) st) c).1 := rfl
    rw [hs, stabilize_same _ c hl, ih.1]
    by_cases hn : n + 1 + 1 ≥ STABLE_FRAMES
    · simp [hn]
    · simp only [hn, if_false]
      refine ⟨trivial, ?_⟩
      rw [ih.2]
      have : ¬ (n + 1 ≥ STABLE_FRAMES) := by
        simp only [STABLE_FRAMES] at hn ⊢; omega
      simp [this]

/-- From any state, `k` feeds bring the count to at least `k`. -/
theorem feed_count_ge (c : String) (st : State) (k : Nat) :
    k ≤ (feed c k st).sameCount := by
  induction k with
  | zero => exact Nat.zero_le _
  | succ n ih =>
    have hs : feed c (n + 1) st = (stabilizeCommand (feed c n st) c).1 := rfl
    cases n with
    | zero => rw [hs]; exact stabilize_count_pos _ c
    | succ m =>
      have hl := feed_lastRaw c m st
      rw [hs, stabilize_same _ c hl]
      split <;> simp <;> omega

/-- From any state, three feeds of `c` make `c` the stable command. -/
theorem feed_three_stable (c : String) (st : State) :
    (feed c 3 st).currentStableCommand = c := by
  have hs : feed c 3 st = (stabilizeCommand (feed c 2 st) c).1 := rfl
  have hl := feed_lastRaw c 1 st
  have hc := feed_count_ge c st 2
  rw [hs, stabilize_same _ c hl]
  have : (feed c 2 st).sameCount + 1 ≥ STABLE_FRAMES := by
    simp only [STABLE_FRAMES]; omega
  simp [this]

/-- C8: from a state whose last raw command differs from `c` and whose
stable command is `s`, consecutive calls `stabilizeCommand(c)` return `s` on
calls 1 and 2 and `c` on every call `k ≥ 3`; and from any state, after three
consecutive calls with `c` the stable command is `c`. -/
theorem stabilize_repeated_feed :
    (∀ (st : State) (c : String), st.lastRawCommand ≠ some c →
      feedOut c 1 st = st.currentStableCommand ∧
      feedOut c 2 st = st.currentStableCommand ∧
      ∀ k, 3 ≤ k → feedOut c k st = c) ∧
    (∀ (st : State) (c : String), (feed c 3 st).currentStableCommand = c) := by
  refine ⟨fun st c h => ?_, fun st c => feed_three_stable c st⟩
  have key : ∀ k, 1 ≤ k → feedOut c k st =
      if k ≥ STABLE_FRAMES then c else st.currentStableCommand := by
    intro k hk
    obtain ⟨n, rfl⟩ : ∃ n, k = n + 1 := ⟨k - 1, by omega⟩
    have := (feed_count_fresh c st h n).2
    simpa [feedOut, stabilize_snd, feed] using this
  refine ⟨?_, ?_, ?_⟩
  · rw [key 1 (by omega)]; simp [STABLE_FRAMES]
  · rw [key 2 (by omega)]; simp [STABLE_FRAMES]
  · intro k hk
    rw [key k (by omega)]
    simp [STABLE_FRAMES, hk]

/-- C8 at a state holding "Avanzar", fed "Retroceder". -/
theorem stabilize_repeated_feed_witness :
    idleState.lastRawCommand ≠ some "Retroceder" ∧
    feedOut "Retroceder" 1 idleState = "Avanzar" ∧
    feedOut "Retroceder" 2 idleState = "Avanzar" ∧
    feedOut "Retroceder" 3 idleState = "Retroceder" ∧
    feedOut "Retroceder" 4 idleState = "Retroceder" :=
  have h : idleState.lastRawCommand ≠ some "Retroceder" := by decide
  ⟨h, (stabilize_repeated_feed.1 idleState "Retroceder" h).1,
    (stabilize_repeated_feed.1 idleState "Retroceder" h).2.1,
    (stabilize_repeated_feed.1 idleState "Retroceder" h).2.2 3 (Nat.le_refl 3),
    (stabilize_repeated_feed.1 idleState "Retroceder" h).2.2 4 (by decide)⟩

/-! ## Frame loop while active -/

/-- What `setCommand` leaves unchanged. -/
theorem setCommand_fields (st : State) (msg : String) :
    (setCommand st msg).running = st.running ∧
    (setCommand st msg).suspended = st.suspended ∧
    (setCommand st msg).lastGoodCommandAt = st.lastGoodCommandAt ∧
    (setCommand st msg).lastFrameSmall = st.lastFrameSmall ∧
    (setCommand st msg).lastRawCommand = st.lastRawCommand ∧
    (setCommand st msg).sameCount = st.sameCount ∧
    (setCommand st msg).currentStableCommand = st.currentStableCommand := by
  unfold setCommand emitGlobalCommand
  split <;> simp

/-- The hand branch does not change the mode. -/
theorem loopHand_suspended (st : State) (now : ℚ) (lm : HandPose) :
    (loopHand st now lm).suspended = st.suspended := by
  unfold loopHand
  simp only
  split
  · simp [(setCommand_fields _ _).2.1, (stabilize_frame st _).2.1]
  · simp [(setCommand_fields _ _).2.1, (stabilize_frame st _).2.1]

/-- The hand branch refreshes the activity timestamp exactly when the stable
command is neither "Orden no reconocida" nor "—". -/
theorem loopHand_lastGood (st : State) (now : ℚ) (lm : HandPose) :
    (loopHand st now lm).lastGoodCommandAt =
      if ((stabilizeCommand st (recognizeCommand lm)).2 != "Orden no reconocida" &&
          (stabilizeCommand st (recognizeCommand lm)).2 != "—") = true
      then now else st.lastGoodCommandAt := by
  unfold loopHand
  simp only
  split
  · rfl
  · simp [(setCommand_fields _ _).2.2.1, (stabilize_frame st _).2.2]

/-- One step of `loop` in a running, active state. -/
theorem loop_active (st : State) (f : FrameInput) (hr : st.running = true)
    (hs : st.suspended = false) :
    loop st f =
      (let st1 := match f.landmarks with
        | lm :: _ => loopHand st f.now lm
        | [] => st
       if f.now - st1.lastGoodCommandAt > SUSPEND_AFTER_MS then setModeUI st1 true else st1) := by
  simp [loop, hr, hs]

/-- One step of `loop` in a running, active state on a frame without a hand:
only the mode can change. -/
theorem loop_active_noHand (st : State) (f : FrameInput) (hr : st.running = true)
    (hs : st.suspended = false) (hn : f.landmarks = []) :
    loop st f =
      { st with suspended := decide (f.now - st.lastGoodCommandAt > SUSPEND_AFTER_MS) } := by
  rw [loop_active st f hr hs, hn]
  simp only [setModeUI]
  split
  · rename_i h; simp [h]
  · rename_i h
    simp only [h, decide_False]
    cases st
    simp_all

/-- C9, as stated, fails.  After Start and two open-palm frames the raw
command "Avanzar" has count 2; a frame without a hand leaves the last raw
command and the count as they are (feeding "—" to the stabilizer would record
"—" with count 1), so the next open-palm frame already makes "Avanzar" stable.
And after three open-palm frames, three frames without a hand leave the
system active with stable command "Avanzar", not "—". -/
theorem no_hand_skips_stabilizer_counterexample :
    (palmTwice.running = true ∧ palmTwice.suspended = false ∧
      palmTwice.lastRawCommand = some "Avanzar" ∧ palmTwice.sameCount = 2 ∧
      palmTwice.currentStableCommand = "—" ∧
      (stabilizeCommand palmTwice "—").1.lastRawCommand = some "—" ∧
      (stabilizeCommand palmTwice "—").1.sameCount = 1 ∧
      (loop palmTwice (noHandFrame 48)).lastRawCommand = some "Avanzar" ∧
      (loop palmTwice (noHandFrame 48)).sameCount = 2 ∧
      (loop (loop palmTwice (noHandFrame 48))
        (handFrame 64 openPalmPose)).currentStableCommand = "Avanzar") ∧
    (palmThrice.running = true ∧ palmThrice.suspended = false ∧
      (runFrames palmThrice [noHandFrame 64, noHandFrame 80, noHandFrame 96]).suspended
        = false ∧
      (runFrames palmThrice
        [noHandFrame 64, noHandFrame 80, noHandFrame 96]).currentStableCommand = "Avanzar" ∧
      (runFrames palmThrice
        [noHandFrame 64, noHandFrame 80, noHandFrame 96]).currentStableCommand ≠ "—") := by
  decide!

/-- C9 amended: while active, a frame with no hand detected does not reach
the stabilizer.  The step changes nothing but the mode, which becomes
suspended exactly when `now - lastGoodCommandAt > 3500`; the last raw command,
the repeat count, the stable command, the activity timestamp and the published
events are left as they were. -/
theorem no_hand_frame_keeps_stabilizer (st : State) (f : FrameInput)
    (hr : st.running = true) (hs : st.suspended = false) (hn : f.landmarks = []) :
    loop st f = { st with suspended := decide (f.now - st.lastGoodCommandAt > 3500) } ∧
    (loop st f).lastRawCommand = st.lastRawCommand ∧
    (loop st f).sameCount = st.sameCount ∧
    (loop st f).currentStableCommand = st.currentStableCommand ∧
    (loop st f).lastGoodCommandAt = st.lastGoodCommandAt ∧
    (loop st f).events = st.events := by
  have h := loop_active_noHand st f hr hs hn
  simp only [SUSPEND_AFTER_MS] at h
  rw [h]
  exact ⟨rfl, rfl, rfl, rfl, rfl, rfl⟩

/-- C9 amended, at a state holding "Avanzar" with count 3 and a frame
without a hand. -/
theorem no_hand_frame_keeps_stabilizer_witness :
    idleState.running = true ∧ idleState.suspended = false ∧
    (noHandFrame 2000).landmarks = [] ∧
    (loop idleState (noHandFrame 2000)).lastRawCommand = some "Avanzar" ∧
    (loop idleState (noHandFrame 2000)).sameCount = 3 ∧
    (loop idleState (noHandFrame 2000)).currentStableCommand = "Avanzar" :=
  ⟨rfl, rfl, rfl,
    (no_hand_frame_keeps_stabilizer idleState (noHandFrame 2000) rfl rfl rfl).2.1,
    (no_hand_frame_keeps_stabilizer idleState (noHandFrame 2000) rfl rfl rfl).2.2.1,
    (no_hand_frame_keeps_stabilizer idleState (noHandFrame 2000) rfl rfl rfl).2.2.2.1⟩

/-- C10: in an active step at time `now` the activity timestamp becomes `now`
exactly when a hand is visible and the stable command is neither "—" nor
"Orden no reconocida" (otherwise it is kept), and the mode is suspended at the
end of the step if and only if `now - lastGoodCommandAt > 3500` for the
resulting timestamp.  So a step with a valid stable command never suspends,
and a step at exactly 3500 ms of inactivity does not suspend. -/
theorem active_step_suspends_iff (st : State) (f : FrameInput) (hr : st.running = true)
    (hs : st.suspended = false) :
    (loop st f).lastGoodCommandAt =
        (if validStable st f = true then f.now else st.lastGoodCommandAt) ∧
    ((loop st f).suspended = true ↔ f.now - (loop st f).lastGoodCommandAt > 3500) ∧
    (validStable st f = true → (loop st f).suspended = false) ∧
    (f.now - (loop st f).lastGoodCommandAt = 3500 → (loop st f).suspended = false) := by
  have hstep := loop_active st f hr hs
  obtain ⟨st1, hst1, hsus, hgood⟩ : ∃ st1 : State,
      loop st f = (if f.now - st1.lastGoodCommandAt > SUSPEND_AFTER_MS then setModeUI st1 true
        else st1) ∧ st1.suspended = false ∧
      st1.lastGoodCommandAt =
        (if validStable st f = true then f.now else st.lastGoodCommandAt) := by
    cases hl : f.landmarks with
    | nil =>
      refine ⟨st, ?_, hs, ?_⟩
      · rw [hstep, hl]
      · simp [validStable, hl]
    | cons lm rest =>
      refine ⟨loopHand st f.now lm, ?_, ?_, ?_⟩
      · rw [hstep, hl]
      · rw [loopHand_suspended, hs]
      · rw [loopHand_lastGood]; simp [validStable, hl]
  have hts : (loop st f).lastGoodCommandAt = st1.lastGoodCommandAt := by
    rw [hst1]; split <;> simp [setModeUI]
  have hiff : (loop st f).suspended = true ↔ f.now - st1.lastGoodCommandAt > 3500 := by
    rw [hst1]
    simp only [SUSPEND_AFTER_MS]
    split
    · rename_i h; simp [setModeUI, h]
    · rename_i h; simp [hsus, h]
  refine ⟨by rw [hts, hgood], by rw [hts]; exact hiff, ?_, ?_⟩
  · intro hv
    rw [Bool.eq_false_iff, Ne, hiff, hgood, hv]
    simp
  · intro he
    rw [hts] at he
    rw [Bool.eq_false_iff, Ne, hiff, he]
    simp

/-- C10 at a state last confirmed at time 1000: a frame without a hand at
time 4500 does not suspend, one at time 4501 does, and an open-palm frame at
time 9000 refreshes the timestamp and does not suspend. -/
theorem active_step_suspends_iff_witness :
    idleState.running = true ∧ idleState.suspended = false ∧
    (loop idleState (noHandFrame 4500)).suspended = false ∧
    (loop idleState (noHandFrame 4501)).suspended = true ∧
    (loop idleState (handFrame 9000 openPalmPose)).suspended = false :=
  ⟨rfl, rfl,
    (active_step_suspends_iff idleState (noHandFrame 4500) rfl rfl).2.2.2 (by decide!),
    (active_step_suspends_iff idleState (noHandFrame 4501) rfl rfl).2.1.2 (by decide!),
    (active_step_suspends_iff idleState (handFrame 9000 openPalmPose) rfl rfl).2.2.1
      (by decide!)⟩

/-! ## Motion detector -/

/-- The loop entered at index `16 * j` with enough rounds left adds the
sampled differences from `j` on. -/
theorem motionLoop_eq_sum (img last : List Nat) :
    ∀ (fuel j : Nat) (score : ℚ), (img.length + 15) / 16 - j ≤ fuel →
      motionLoop img last fuel (16 * j) score =
        score + ∑ k in Finset.Ico j ((img.length + 15) / 16),
          |((img.getD (16 * k) 0 : Nat) : ℚ) - ((last.getD (16 * k) 0 : Nat) : ℚ)| := by
  intro fuel
  induction fuel with
  | zero =>
    intro j score h
    have hj : (img.length + 15) / 16 ≤ j := by omega
    simp [motionLoop, Finset.Ico_eq_empty_of_le hj]
  | succ n ih =>
    intro j score h
    by_cases hlt : 16 * j < img.length
    · have hj : j < (img.length + 15) / 16 := by omega
      have hstep : 16 * j + 16 = 16 * (j + 1) := by ring
      rw [motionLoop, if_pos hlt, hstep, ih (j + 1) _ (by omega),
        Finset.sum_eq_sum_Ico_succ_bot hj, add_assoc]
    · have hj : (img.length + 15) / 16 ≤ j := by omega
      rw [motionLoop, if_neg hlt]
      simp [Finset.Ico_eq_empty_of_le hj]

/-- The loop of `computeMotionScore` runs to its end within `img.data.length`
rounds and accumulates the absolute differences at the indices
`0, 16, 32, ...` below the length. -/
theorem motionSum_eq_sum (img last : List Nat) :
    motionSum img last =
      ∑ k in Finset.range ((img.length + 15) / 16),
        |((img.getD (16 * k) 0 : Nat) : ℚ) - ((last.getD (16 * k) 0 : Nat) : ℚ)| := by
  have h := motionLoop_eq_sum img last img.length 0 0 (by omega)
  rw [Nat.mul_zero, zero_add] at h
  rw [Finset.range_eq_Ico]
  exact h

/-- Reading a byte buffer at any index gives at most 255. -/
theorem getD_le_of_forall_le (l : List Nat) (hb : ∀ x ∈ l, x ≤ 255) (i : Nat) :
    l.getD i 0 ≤ 255 := by
  by_cases hi : i < l.length
  · rw [List.getD_eq_getElem l 0 hi]
    exact hb _ (List.getElem_mem _)
  · rw [List.getD_eq_default l 0 (by omega)]
    omega

/-- Two bytes differ by at most 255. -/
theorem abs_byte_sub_le (a b : Nat) (ha : a ≤ 255) (hb : b ≤ 255) :
    |((a : Nat) : ℚ) - ((b : Nat) : ℚ)| ≤ 255 := by
  have ha2 : ((a : Nat) : ℚ) ≤ 255 := by exact_mod_cast ha
  have hb2 : ((b : Nat) : ℚ) ≤ 255 := by exact_mod_cast hb
  have ha0 : (0 : ℚ) ≤ ((a : Nat) : ℚ) := Nat.cast_nonneg a
  have hb0 : (0 : ℚ) ≤ ((b : Nat) : ℚ) := Nat.cast_nonneg b
  rw [abs_le]
  constructor <;> linarith

/-- C19: on a frame of bytes whose length is a positive multiple of 16,
`computeMotionScore` returns 0 when no baseline is stored; with a stored
baseline of the same length it returns the sum of `|cur[i] - prev[i]|` over
`i = 0, 16, 32, ...` divided by `length / 16`, a value between 0 and 255 that
is 0 when the two frames are equal; and in both cases the stored baseline
afterwards is the current frame (nothing else changes). -/
theorem computeMotionScore_spec (st : State) (img : List Nat) (n : Nat) (hn : 0 < n)
    (hlen : img.length = 16 * n) (hb : ∀ x ∈ img, x ≤ 255) :
    (st.lastFrameSmall = none → (computeMotionScore st img).2 = 0) ∧
    (∀ prev : List Nat, st.lastFrameSmall = some prev → prev.length = img.length →
      (∀ x ∈ prev, x ≤ 255) →
        (computeMotionScore st img).2 =
          (∑ k in Finset.range n,
            |((img.getD (16 * k) 0 : Nat) : ℚ) - ((prev.getD (16 * k) 0 : Nat) : ℚ)|) / n ∧
        0 ≤ (computeMotionScore st img).2 ∧ (computeMotionScore st img).2 ≤ 255 ∧
        (prev = img → (computeMotionScore st img).2 = 0)) ∧
    (computeMotionScore st img).1 = { st with lastFrameSmall := some img } := by
  refine ⟨fun h => by simp [computeMotionScore, h], ?_, rfl⟩
  intro prev hprev _ hpb
  have hcount : (img.length + 15) / 16 = n := by omega
  have hn0 : (0 : ℚ) < n := by exact_mod_cast hn
  have hdiv : ((img.length : ℕ) : ℚ) / 16 = n := by
    rw [hlen]; push_cast; ring
  have hscore : (computeMotionScore st img).2 =
      (∑ k in Finset.range n,
        |((img.getD (16 * k) 0 : Nat) : ℚ) - ((prev.getD (16 * k) 0 : Nat) : ℚ)|) / n := by
    simp only [computeMotionScore, hprev]
    rw [motionSum_eq_sum, hcount, hdiv]
  have hnonneg : (0 : ℚ) ≤ ∑ k in Finset.range n,
      |((img.getD (16 * k) 0 : Nat) : ℚ) - ((prev.getD (16 * k) 0 : Nat) : ℚ)| :=
    Finset.sum_nonneg (fun k _ => abs_nonneg _)
  have hle : (∑ k in Finset.range n,
      |((img.getD (16 * k) 0 : Nat) : ℚ) - ((prev.getD (16 * k) 0 : Nat) : ℚ)|) ≤ 255 * n := by
    have := Finset.sum_le_card_nsmul (Finset.range n)
      (fun k => |((img.getD (16 * k) 0 : Nat) : ℚ) - ((prev.getD (16 * k) 0 : Nat) : ℚ)|) 255
      (fun k _ => abs_byte_sub_le _ _ (getD_le_of_forall_le img hb _)
        (getD_le_of_forall_le prev hpb _))
    simpa [mul_comm] using this
  refine ⟨hscore, ?_, ?_, ?_⟩
  · rw [hscore]; exact div_nonneg hnonneg hn0.le
  · rw [hscore, div_le_iff₀ hn0]; exact hle
  · intro he
    rw [hscore, he]
    simp

/-- C19 at a 16-byte frame: no baseline gives 0, a dark baseline against a
frame whose sampled byte is 255 gives 255. -/
theorem computeMotionScore_spec_witness :
    (computeMotionScore init (tinyImg 255)).2 = 0 ∧
    (computeMotionScore sleepState (tinyImg 255)).2 ≤ 255 ∧
    (computeMotionScore sleepState (tinyImg 255)).1.lastFrameSmall = some (tinyImg 255) :=
  have hb : ∀ x ∈ tinyImg 255, x ≤ 255 := by decide
  have hb0 : ∀ x ∈ tinyImg 0, x ≤ 255 := by decide
  ⟨(computeMotionScore_spec init (tinyImg 255) 1 (by decide) (by decide) hb).1 (by decide!),
   ((computeMotionScore_spec sleepState (tinyImg 255) 1 (by decide) (by decide) hb).2.1
      (tinyImg 0) (by decide!) (by decide) hb0).2.2.1,
   by rw [(computeMotionScore_spec sleepState (tinyImg 255) 1 (by decide) (by decide) hb).2.2]⟩

/-! ## Stabilizer invariant -/

/-- Feeding one more raw command is one more call of `stabilizeCommand`. -/
theorem feedAll_append (st : State) (rs : List String) (r : String) :
    feedAll st (rs ++ [r]) = (stabilizeCommand (feedAll st rs) r).1 := by
  simp [feedAll, List.foldl_append]

/-- An empty stabilizer satisfies the invariant for the empty history. -/
theorem stabInv_nil (s : State) (h1 : s.lastRawCommand = none) (h2 : s.sameCount = 0)
    (h3 : s.currentStableCommand = "—") : StabInv [] s := by
  refine ⟨fun _ => ⟨h1, h2⟩, fun h => absurd rfl h, ?_, ?_, Or.inl h3⟩
  · intro k hk hk2; omega
  · intro h; omega

/-- The invariant only looks at the three stabilizer fields. -/
theorem stabInv_congr (rs : List String) (s t : State) (h : StabInv rs s)
    (h1 : t.lastRawCommand = s.lastRawCommand) (h2 : t.sameCount = s.sameCount)
    (h3 : t.currentStableCommand = s.currentStableCommand) : StabInv rs t := by
  unfold StabInv at h ⊢
  rw [h1, h2, h3]
  exact h

/-- One call of `stabilizeCommand` extends the history by the value fed. -/
theorem stabInv_step (rs : List String) (s : State) (r : String) (h : StabInv rs s) :
    StabInv (rs ++ [r]) (stabilizeCommand s r).1 := by
  obtain ⟨hnil, hcons, hrun, hthree, hstable⟩ := h
  have hne : rs ++ [r] ≠ [] := by simp
  have hlast : (rs ++ [r]).getLast? = some r := by simp
  have hkeep : ∀ c : String, (c = "—" ∨ ∃ p q, rs = p ++ [c, c, c] ++ q) →
      (c = "—" ∨ ∃ p q, rs ++ [r] = p ++ [c, c, c] ++ q) := by
    rintro c (hc | ⟨p, q, hpq⟩)
    · exact Or.inl hc
    · exact Or.inr ⟨p, q ++ [r], by rw [hpq]; simp⟩
  by_cases hsame : s.lastRawCommand = some r
  · have hrun2 : ∀ k, 1 ≤ k → k ≤ s.sameCount + 1 →
        ∃ p c, rs ++ [r] = p ++ List.replicate k c ∧ some r = some c := by
      intro k hk hk2
      by_cases hk1 : k = 1
      · exact ⟨rs, r, by rw [hk1]; rfl, rfl⟩
      · obtain ⟨p, c, hp, hc⟩ := hrun (k - 1) (by omega) (by omega)
        have hcr : c = r := by rw [hsame] at hc; exact (Option.some.inj hc).symm
        refine ⟨p, r, ?_, rfl⟩
        have hk' : k = (k - 1) + 1 := by omega
        rw [hk', List.replicate_succ', hp, hcr, List.append_assoc]
    rw [stabilize_same s r hsame]
    by_cases hge : s.sameCount + 1 ≥ STABLE_FRAMES
    · simp only [hge, if_true]
      refine ⟨fun h => absurd h hne, fun _ => ⟨by simp, by rw [hlast]; exact hsame⟩, ?_, ?_, ?_⟩
      · intro k hk hk2
        obtain ⟨p, c, hp, hc⟩ := hrun2 k hk hk2
        exact ⟨p, c, hp, by rw [hsame]; exact hc⟩
      · intro _; exact hsame
      · obtain ⟨p, c, hp, hc⟩ := hrun2 3 (by omega) (by simp only [STABLE_FRAMES] at hge; omega)
        have hcr : c = r := (Option.some.inj hc).symm
        exact Or.inr ⟨p, [], by rw [hp, hcr]; simp [List.replicate]⟩
    · simp only [hge, if_false]
      refine ⟨fun h => absurd h hne, fun _ => ⟨by simp, by rw [hlast]; exact hsame⟩, ?_, ?_, ?_⟩
      · intro k hk hk2
        obtain ⟨p, c, hp, hc⟩ := hrun2 k hk hk2
        exact ⟨p, c, hp, by rw [hsame]; exact hc⟩
      · intro h3
        simp only [STABLE_FRAMES] at hge
        have h4 : 3 ≤ s.sameCount + 1 := h3
        exact absurd h4 hge
      · exact hkeep _ hstable
  · rw [stabilize_diff s r hsame]
    refine ⟨fun h => absurd h hne, fun _ => ⟨le_refl 1, by rw [hlast]⟩, ?_, ?_, ?_⟩
    · intro k hk hk2
      have hk1 : k = 1 := le_antisymm hk2 hk
      exact ⟨rs, r, by rw [hk1]; rfl, rfl⟩
    · intro h3
      have h4 : 3 ≤ 1 := h3
      exact absurd h4 (by decide)
    · exact hkeep _ hstable

/-- From an empty stabilizer, any sequence of calls keeps the invariant. -/
theorem stabInv_feedAll (st : State) (h1 : st.lastRawCommand = none)
    (h2 : st.sameCount = 0) (h3 : st.currentStableCommand = "—") (rs : List String) :
    StabInv rs (feedAll st rs) := by
  induction rs using List.reverseRecOn with
  | nil => exact stabInv_nil st h1 h2 h3
  | append_singleton l a ih =>
    rw [feedAll_append]
    exact stabInv_step l _ a ih

/-- C20: in every state reached from the empty stabilizer by a sequence `rs`
of `stabilizeCommand` calls, after at least one call the repeat count is at
least 1 and the last raw command is the value most recently fed; whenever the
repeat count is at least 3 the stable command equals the last raw command; and
the stable command is either the sentinel or a value fed on three consecutive
calls. -/
theorem stabilizer_invariant (st : State) (h1 : st.lastRawCommand = none)
    (h2 : st.sameCount = 0) (h3 : st.currentStableCommand = "—") (rs : List String) :
    (rs ≠ [] → 1 ≤ (feedAll st rs).sameCount ∧
      (feedAll st rs).lastRawCommand = rs.getLast?) ∧
    (3 ≤ (feedAll st rs).sameCount →
      (feedAll st rs).lastRawCommand = some (feedAll st rs).currentStableCommand) ∧
    ((feedAll st rs).currentStableCommand = "—" ∨
      ∃ p q, rs = p ++ [(feedAll st rs).currentStableCommand,
        (feedAll st rs).currentStableCommand, (feedAll st rs).currentStableCommand] ++ q) := by
  obtain ⟨_, hcons, _, hthree, hstable⟩ := stabInv_feedAll st h1 h2 h3 rs
  exact ⟨hcons, hthree, hstable⟩

/-- C20 from the initial state, fed "Avanzar" once and then "Detener" three
times. -/
theorem stabilizer_invariant_witness :
    init.lastRawCommand = none ∧ init.sameCount = 0 ∧ init.currentStableCommand = "—" ∧
    (feedAll init ["Avanzar", "Detener", "Detener", "Detener"]).lastRawCommand =
      some (feedAll init ["Avanzar", "Detener", "Detener", "Detener"]).currentStableCommand ∧
    (feedAll init ["Avanzar", "Detener", "Detener", "Detener"]).currentStableCommand
      = "Detener" :=
  have h1 : init.lastRawCommand = none := by decide
  have h2 : init.sameCount = 0 := by decide
  have h3 : init.currentStableCommand = "—" := by decide
  ⟨h1, h2, h3,
    (stabilizer_invariant init h1 h2 h3 ["Avanzar", "Detener", "Detener", "Detener"]).2.1
      (by decide),
    by decide⟩

/-! ## Frame loop while suspended -/

/-- One step of `loop` in a running, suspended state. -/
theorem loop_suspended (st : State) (f : FrameInput) (hr : st.running = true)
    (hs : st.suspended = true) :
    loop st f =
      if (computeMotionScore st f.img).2 > 18 then
        { st with suspended := false, lastGoodCommandAt := f.now, lastFrameSmall := some f.img,
                  lastRawCommand := none, sameCount := 0, currentStableCommand := "—",
                  commandText := "—" }
      else { st with lastFrameSmall := some f.img } := by
  simp only [loop, hr, hs, Bool.not_true, Bool.false_eq_true, if_false, if_true,
    MOTION_WAKE_THRESHOLD]
  split
  · simp [setCommand, setModeUI, computeMotionScore, hr]
  · simp [computeMotionScore, hr, hs]

/-- C11: in a suspended step at time `now` with motion score `m`: if `m > 18`
the mode is active at the end of the step, the stabilizer is reset to (no last
raw command, count 0, stable "—") and the activity timestamp is `now`; if
`m ≤ 18` the mode stays suspended and the stabilizer state, the stable command
and the activity timestamp are unchanged.  Nothing is published either way. -/
theorem suspended_step (st : State) (f : FrameInput) (hr : st.running = true)
    (hs : st.suspended = true) :
    ((computeMotionScore st f.img).2 > 18 →
      (loop st f).suspended = false ∧ (loop st f).lastRawCommand = none ∧
      (loop st f).sameCount = 0 ∧ (loop st f).currentStableCommand = "—" ∧
      (loop st f).lastGoodCommandAt = f.now ∧ (loop st f).events = st.events) ∧
    ((computeMotionScore st f.img).2 ≤ 18 →
      (loop st f).suspended = true ∧ (loop st f).lastRawCommand = st.lastRawCommand ∧
      (loop st f).sameCount = st.sameCount ∧
      (loop st f).currentStableCommand = st.currentStableCommand ∧
      (loop st f).lastGoodCommandAt = st.lastGoodCommandAt ∧
      (loop st f).events = st.events) := by
  rw [loop_suspended st f hr hs]
  constructor
  · intro h
    rw [if_pos h]
    exact ⟨rfl, rfl, rfl, rfl, rfl, rfl⟩
  · intro h
    rw [if_neg (not_lt.mpr h)]
    exact ⟨hs, rfl, rfl, rfl, rfl, rfl⟩

/-- C11 at the suspended state `sleepState`: a bright frame at time 5000
wakes and resets, a dark frame at time 5000 changes nothing. -/
theorem suspended_step_witness :
    sleepState.running = true ∧ sleepState.suspended = true ∧
    ((loop sleepState (imgFrame 5000 255)).suspended = false ∧
      (loop sleepState (imgFrame 5000 255)).lastRawCommand = none ∧
      (loop sleepState (imgFrame 5000 255)).sameCount = 0 ∧
      (loop sleepState (imgFrame 5000 255)).currentStableCommand = "—" ∧
      (loop sleepState (imgFrame 5000 255)).lastGoodCommandAt = 5000) ∧
    ((loop sleepState (imgFrame 5000 0)).suspended = true ∧
      (loop sleepState (imgFrame 5000 0)).currentStableCommand = "Avanzar") :=
  have hr : sleepState.running = true := by decide!
  have hs : sleepState.suspended = true := by decide!
  have hw := (suspended_step sleepState (imgFrame 5000 255) hr hs).1 (by decide!)
  have hq := (suspended_step sleepState (imgFrame 5000 0) hr hs).2 (by decide!)
  ⟨hr, hs, ⟨hw.1, hw.2.1, hw.2.2.1, hw.2.2.2.1, hw.2.2.2.2.1⟩,
    ⟨hq.1, by rw [hq.2.2.2.1]; decide!⟩⟩

/-! ## Stable output after a wake -/

/-- In an active step with a hand the stabilizer fields are those left by
`stabilizeCommand` on the recognized command. -/
theorem loop_active_hand_stab (st : State) (f : FrameInput) (lm : HandPose)
    (rest : List HandPose) (hr : st.running = true) (hs : st.suspended = false)
    (hl : f.landmarks = lm :: rest) :
    (loop st f).lastRawCommand = (stabilizeCommand st (recognizeCommand lm)).1.lastRawCommand ∧
    (loop st f).sameCount = (stabilizeCommand st (recognizeCommand lm)).1.sameCount ∧
    (loop st f).currentStableCommand =
      (stabilizeCommand st (recognizeCommand lm)).1.currentStableCommand := by
  rw [loop_active st f hr hs, hl]
  have hc := setCommand_fields (stabilizeCommand st (recognizeCommand lm)).1
    (stabilizeCommand st (recognizeCommand lm)).2
  simp only [loopHand, setModeUI]
  split <;> split <;> simp [hc.2.2.2.2.1, hc.2.2.2.2.2.1, hc.2.2.2.2.2.2]

/-- In an active step without a hand the stabilizer fields are unchanged. -/
theorem no_hand_fields (st : State) (f : FrameInput) (hr : st.running = true)
    (hs : st.suspended = false) (hn : f.landmarks = []) :
    (loop st f).lastRawCommand = st.lastRawCommand ∧
    (loop st f).sameCount = st.sameCount ∧
    (loop st f).currentStableCommand = st.currentStableCommand := by
  rw [loop_active_noHand st f hr hs hn]
  exact ⟨rfl, rfl, rfl⟩

/-- The loop never changes `running`. -/
theorem loop_running (st : State) (f : FrameInput) : (loop st f).running = st.running := by
  by_cases hr : st.running = true
  · by_cases hs : st.suspended = true
    · rw [loop_suspended st f hr hs]; split <;> rfl
    · have hs2 : st.suspended = false := by simpa using hs
      cases hl : f.landmarks with
      | nil =>
        rw [loop_active_noHand st f hr hs2 hl]
      | cons lm rest =>
        rw [loop_active st f hr hs2, hl]
        have hc := setCommand_fields (stabilizeCommand st (recognizeCommand lm)).1
          (stabilizeCommand st (recognizeCommand lm)).2
        simp only [loopHand, setModeUI]
        split <;> split <;> simp [hc.1, (stabilize_frame st _).1]
  · simp [loop, hr]

/-- Frames processed in active mode extend the history of the stabilizer by
the raw commands of the frames that show a hand. -/
theorem stabInv_runFrames (fs : List FrameInput) :
    ∀ (s : State) (rs : List String), StabInv rs s → s.running = true →
      allActive s fs = true → StabInv (rs ++ rawsOf fs) (runFrames s fs) := by
  induction fs with
  | nil =>
    intro s rs h _ _
    simpa [rawsOf, runFrames] using h
  | cons f fs ih =>
    intro s rs h hr hact
    simp only [allActive, Bool.and_eq_true, Bool.not_eq_true'] at hact
    obtain ⟨hs, hact2⟩ := hact
    have hrun : runFrames s (f :: fs) = runFrames (loop s f) fs := rfl
    have hr2 : (loop s f).running = true := by rw [loop_running]; exact hr
    rw [hrun]
    cases hl : f.landmarks with
    | nil =>
      have hraw : rawsOf (f :: fs) = rawsOf fs := by simp [rawsOf, hl]
      rw [hraw]
      have hk := no_hand_fields s f hr hs hl
      exact ih (loop s f) rs (stabInv_congr rs s _ h hk.1 hk.2.1 hk.2.2) hr2 hact2
    | cons lm rest =>
      have hraw : rawsOf (f :: fs) = recognizeCommand lm :: rawsOf fs := by simp [rawsOf, hl]
      have hk := loop_active_hand_stab s f lm rest hr hs hl
      have hstep := stabInv_step rs s (recognizeCommand lm) h
      have := ih (loop s f) (rs ++ [recognizeCommand lm])
        (stabInv_congr _ _ _ hstep hk.1 hk.2.1 hk.2.2) hr2 hact2
      rw [hraw]
      simpa using this

/-- A call that changes the stable command has reached the threshold and
returns the value fed. -/
theorem stabilize_changes (s : State) (r : String)
    (h : (stabilizeCommand s r).1.currentStableCommand ≠ s.currentStableCommand) :
    3 ≤ (stabilizeCommand s r).1.sameCount ∧
      (stabilizeCommand s r).1.currentStableCommand = r := by
  by_cases hsame : s.lastRawCommand = some r
  · rw [stabilize_same s r hsame] at h ⊢
    by_cases hge : s.sameCount + 1 ≥ STABLE_FRAMES
    · rw [if_pos hge]
      exact ⟨hge, rfl⟩
    · rw [if_neg hge] at h
      exact absurd rfl h
  · rw [stabilize_diff s r hsame] at h
    exact absurd rfl h

/-- The raw commands of a list of frames followed by one frame with a hand. -/
theorem rawsOf_append_hand (fs : List FrameInput) (g : FrameInput) (lm : HandPose)
    (rest : List HandPose) (hl : g.landmarks = lm :: rest) :
    rawsOf (fs ++ [g]) = rawsOf fs ++ [recognizeCommand lm] := by
  induction fs with
  | nil => simp [rawsOf, hl]
  | cons f fs ih =>
    cases hf : f.landmarks with
    | nil => simp [rawsOf, hf, ih]
    | cons a b => simp [rawsOf, hf, ih]

/-- C12: after an automatic wake, run any frames that are all processed in
active mode.  The stable command is then the sentinel "—" unless it was
produced as raw command on three consecutive classified frames; and a frame
with a hand on which the stable command first differs from the sentinel is the
third of three consecutive classified frames with that raw command. -/
theorem stable_after_wake (st : State) (f0 : FrameInput) (fs : List FrameInput)
    (hr : st.running = true) (hs : st.suspended = true)
    (hm : (computeMotionScore st f0.img).2 > 18)
    (hact : allActive (loop st f0) fs = true) :
    ((runFrames (loop st f0) fs).currentStableCommand = "—" ∨
      ∃ p q, rawsOf fs = p ++ [(runFrames (loop st f0) fs).currentStableCommand,
        (runFrames (loop st f0) fs).currentStableCommand,
        (runFrames (loop st f0) fs).currentStableCommand] ++ q) ∧
    (∀ (g : FrameInput) (lm : HandPose) (rest : List HandPose),
      g.landmarks = lm :: rest →
      (runFrames (loop st f0) fs).suspended = false →
      (runFrames (loop st f0) fs).currentStableCommand = "—" →
      (loop (runFrames (loop st f0) fs) g).currentStableCommand ≠ "—" →
        (loop (runFrames (loop st f0) fs) g).currentStableCommand = recognizeCommand lm ∧
        ∃ p, rawsOf (fs ++ [g]) =
          p ++ [recognizeCommand lm, recognizeCommand lm, recognizeCommand lm]) := by
  have hw := (loop_suspended st f0 hr hs)
  rw [if_pos hm] at hw
  have hwr : (loop st f0).running = true := by rw [loop_running]; exact hr
  have h0 : StabInv [] (loop st f0) := by
    apply stabInv_nil <;> rw [hw]
  have hinv := stabInv_runFrames fs (loop st f0) [] h0 hwr hact
  rw [List.nil_append] at hinv
  refine ⟨hinv.2.2.2.2, ?_⟩
  intro g lm rest hl hsus hsent hne
  have hrun : (runFrames (loop st f0) fs).running = true := by
    have : ∀ (l : List FrameInput) (s : State), (runFrames s l).running = s.running := by
      intro l
      induction l with
      | nil => intro s; rfl
      | cons a l ih => intro s; exact (ih (loop s a)).trans (loop_running s a)
    rw [this]; exact hwr
  have hk := loop_active_hand_stab _ g lm rest hrun hsus hl
  have hstep := stabInv_step _ _ (recognizeCommand lm) hinv
  rw [hk.2.2] at hne ⊢
  have hch := stabilize_changes (runFrames (loop st f0) fs) (recognizeCommand lm)
    (by rw [hsent]; exact hne)
  refine ⟨hch.2, ?_⟩
  obtain ⟨p, c, hp, hc⟩ := hstep.2.2.1 3 (by decide) hch.1
  have hcr : c = recognizeCommand lm := by
    rw [stabilize_lastRaw] at hc
    exact (Option.some.inj hc).symm
  refine ⟨p, ?_⟩
  rw [rawsOf_append_hand fs g lm rest hl, hp, hcr]
  rfl

/-- C12 at `sleepState` woken at time 5000 and followed by closed-fist
frames: after two of them the stable command is still "—", and the third one
makes it "Retroceder". -/
theorem stable_after_wake_witness :
    (runFrames (loop sleepState (imgFrame 5000 255))
      [handFrame 5016 fistPose, handFrame 5032 fistPose]).currentStableCommand = "—" ∧
    (loop (runFrames (loop sleepState (imgFrame 5000 255))
      [handFrame 5016 fistPose, handFrame 5032 fistPose])
      (handFrame 5048 fistPose)).currentStableCommand = recognizeCommand fistPose ∧
    recognizeCommand fistPose = "Retroceder" :=
  have h1 : (runFrames (loop sleepState (imgFrame 5000 255))
      [handFrame 5016 fistPose, handFrame 5032 fistPose]).currentStableCommand = "—" := by
    decide!
  ⟨h1,
   ((stable_after_wake sleepState (imgFrame 5000 255)
      [handFrame 5016 fistPose, handFrame 5032 fistPose]
      (by decide!) (by decide!) (by decide!) (by decide!)).2
      (handFrame 5048 fistPose) fistPose [] rfl (by decide!) h1 (by decide!)).1,
   by decide!⟩

/-! ## Command emitter -/

/-- What `setCommand` publishes: one event carrying `msg` when `msg` is
neither empty nor the sentinel, nothing otherwise. -/
theorem setCommand_events (st : State) (msg : String) :
    (setCommand st msg).events =
      if msg ≠ "" ∧ msg ≠ "—" then st.events ++ [⟨"gestos", msg⟩] else st.events := by
  unfold setCommand emitGlobalCommand
  by_cases h1 : msg = ""
  · simp [h1]
  · by_cases h2 : msg = "—"
    · simp [h2]
    · simp [h1, h2]

/-- The stabilizer publishes nothing. -/
theorem stabilize_events (st : State) (c : String) :
    (stabilizeCommand st c).1.events = st.events := by
  unfold stabilizeCommand
  simp only
  split <;> split <;> rfl

/-- Every command produced by the classifier is one of ten non-empty labels,
none of them the sentinel. -/
theorem recognize_publishable (lm : HandPose) :
    recognizeCommand lm ≠ "" ∧ recognizeCommand lm ≠ "—" := by
  unfold recognizeCommand
  simp only
  repeat' split
  all_goals decide

/-- Every command produced by the classifier is one of the ten labels. -/
theorem recognize_label (lm : HandPose) : recognizeCommand lm ∈ commandLabels := by
  unfold recognizeCommand
  simp only
  repeat' split
  all_goals decide

/-- A command label is neither empty nor the sentinel. -/
theorem label_publishable (msg : String) (h : msg ∈ commandLabels) :
    msg ≠ "" ∧ msg ≠ "—" := by
  simp only [commandLabels, List.mem_cons, List.mem_singleton, List.not_mem_nil, or_false] at h
  rcases h with h | h | h | h | h | h | h | h | h | h <;> rw [h] <;> decide

/-- A step of `loop` in a state that is not running does nothing. -/
theorem loop_stopped (st : State) (f : FrameInput) (hr : st.running = false) :
    loop st f = st := by
  simp [loop, hr]

/-- In every reachable state the stored stable command is the sentinel or one
of the ten command labels. -/
theorem reachable_stable (st : State) (h : Reachable st) :
    st.currentStableCommand = "—" ∨ st.currentStableCommand ∈ commandLabels := by
  induction h with
  | init => exact Or.inl (by decide)
  | start s t _ _ => exact Or.inl rfl
  | stop s _ ih =>
    have : (btnStopClick s).currentStableCommand = s.currentStableCommand :=
      (setCommand_fields _ _).2.2.2.2.2.2
    rw [this]; exact ih
  | toggle s _ ih =>
    have : (btnToggleSuspendClick s).currentStableCommand = s.currentStableCommand := by
      unfold btnToggleSuspendClick setModeUI
      split <;> rfl
    rw [this]; exact ih
  | frame s f _ ih =>
    by_cases hr : s.running = true
    · by_cases hs : s.suspended = true
      · rw [loop_suspended s f hr hs]
        split
        · exact Or.inl rfl
        · exact ih
      · have hs2 : s.suspended = false := by simpa using hs
        cases hl : f.landmarks with
        | nil => rw [(no_hand_fields s f hr hs2 hl).2.2]; exact ih
        | cons lm rest =>
          rw [(loop_active_hand_stab s f lm rest hr hs2 hl).2.2]
          by_cases hc : (stabilizeCommand s (recognizeCommand lm)).1.currentStableCommand =
              s.currentStableCommand
          · rw [hc]; exact ih
          · rw [(stabilize_changes s _ hc).2]
            exact Or.inr (recognize_label lm)
    · have hr2 : s.running = false := by simpa using hr
      rw [loop_stopped s f hr2]; exact ih

/-- C13: for a command (one of the ten labels or the sentinel "—"),
`setCommand` publishes exactly one notification carrying the command when it
is not the sentinel and publishes nothing when it is the sentinel; in
particular "Orden no reconocida" is published; and in every reachable state an
active frame with a hand publishes exactly one event, carrying its stable
command, if and only if that stable command is not the sentinel, and no event
otherwise. -/
theorem setCommand_publishes :
    (∀ (st : State) (msg : String), msg = "—" ∨ msg ∈ commandLabels →
      (setCommand st msg).events =
        if msg ≠ "—" then st.events ++ [⟨"gestos", msg⟩] else st.events) ∧
    (∀ st : State, (setCommand st "—").events = st.events) ∧
    (∀ st : State, (setCommand st "Orden no reconocida").events =
      st.events ++ [⟨"gestos", "Orden no reconocida"⟩]) ∧
    (∀ (st : State) (f : FrameInput) (lm : HandPose) (rest : List HandPose),
      Reachable st → st.running = true → st.suspended = false → f.landmarks = lm :: rest →
      (loop st f).events =
          (if (stabilizeCommand st (recognizeCommand lm)).2 ≠ "—"
           then st.events ++ [⟨"gestos", (stabilizeCommand st (recognizeCommand lm)).2⟩]
           else st.events) ∧
      ((loop st f).events.length = st.events.length + 1 ↔
        (stabilizeCommand st (recognizeCommand lm)).2 ≠ "—") ∧
      ((loop st f).events = st.events ↔
        (stabilizeCommand st (recognizeCommand lm)).2 = "—")) := by
  have key : ∀ (st : State) (msg : String), msg = "—" ∨ msg ∈ commandLabels →
      (setCommand st msg).events =
        if msg ≠ "—" then st.events ++ [⟨"gestos", msg⟩] else st.events := by
    intro st msg h
    rw [setCommand_events]
    rcases h with h | h
    · simp [h]
    · have hp := label_publishable msg h
      simp [hp.1, hp.2]
  refine ⟨key, fun st => by rw [setCommand_events]; simp,
    fun st => by rw [setCommand_events]; simp, ?_⟩
  intro st f lm rest hreach hr hs hl
  have hcmd : (stabilizeCommand st (recognizeCommand lm)).2 = "—" ∨
      (stabilizeCommand st (recognizeCommand lm)).2 ∈ commandLabels := by
    by_cases hc : (stabilizeCommand st (recognizeCommand lm)).1.currentStableCommand =
        st.currentStableCommand
    · rw [stabilize_snd, hc]; exact reachable_stable st hreach
    · rw [stabilize_snd, (stabilize_changes st _ hc).2]
      exact Or.inr (recognize_label lm)
  have hev : (loop st f).events =
      (if (stabilizeCommand st (recognizeCommand lm)).2 ≠ "—"
       then st.events ++ [⟨"gestos", (stabilizeCommand st (recognizeCommand lm)).2⟩]
       else st.events) := by
    have he := key (stabilizeCommand st (recognizeCommand lm)).1
      (stabilizeCommand st (recognizeCommand lm)).2 hcmd
    rw [stabilize_events] at he
    rw [loop_active st f hr hs, hl]
    simp only [loopHand, setModeUI]
    split <;> split <;> exact he
  refine ⟨hev, ?_, ?_⟩
  · rw [hev]
    by_cases h : (stabilizeCommand st (recognizeCommand lm)).2 = "—"
    · simp [h]
    · simp [h]
  · rw [hev]
    by_cases h : (stabilizeCommand st (recognizeCommand lm)).2 = "—"
    · simp [h]
    · simp [h]

/-- C13 at the state after three open-palm frames: `setCommand("Detener")`
publishes one event, and a fourth open-palm frame publishes one more
"Avanzar". -/
theorem setCommand_publishes_witness :
    (setCommand palmThrice "Detener").events = palmThrice.events ++ [⟨"gestos", "Detener"⟩] ∧
    (loop palmThrice (handFrame 64 openPalmPose)).events =
      [⟨"gestos", "Avanzar"⟩, ⟨"gestos", "Avanzar"⟩] :=
  have hreach : Reachable palmThrice :=
    Reachable.frame _ _ (Reachable.frame _ _ (Reachable.frame _ _
      (Reachable.start init 0 Reachable.init)))
  ⟨by rw [setCommand_publishes.1 palmThrice "Detener" (Or.inr (by decide))]; decide!,
   by rw [(setCommand_publishes.2.2.2 palmThrice (handFrame 64 openPalmPose) openPalmPose []
        hreach (by decide!) (by decide!) rfl).1]; decide!⟩

/-! ## End to end: Start and three closed-fist frames -/

/-- A pose with all five flags retracted is classified "Retroceder". -/
theorem recognize_fist_flags (lm : HandPose)
    (h : fingerFlags lm = ⟨false, false, false, false, false⟩) :
    recognizeCommand lm = "Retroceder" := by
  have h1 : isOpenPalm lm = false := by
    rw [Bool.eq_false_iff, Ne, isOpenPalm_iff, h]; decide
  have h2 := (isFist_iff lm).2 h
  simp [recognizeCommand, h1, h2]

/-- An active step with a hand whose raw command is not yet confirmed and
whose stored stable command is the sentinel: only the stabilizer history and
the displayed text change, provided the inactivity timeout has not passed. -/
theorem loop_hand_pending (st : State) (f : FrameInput) (lm : HandPose)
    (rest : List HandPose) (hr : st.running = true) (hs : st.suspended = false)
    (hl : f.landmarks = lm :: rest)
    (hstab : (stabilizeCommand st (recognizeCommand lm)).2 = "—")
    (ht : f.now - st.lastGoodCommandAt ≤ 3500) :
    loop st f =
      { (stabilizeCommand st (recognizeCommand lm)).1 with commandText := "—" } := by
  rw [loop_active st f hr hs, hl]
  have hg := (stabilize_frame st (recognizeCommand lm)).2.2
  simp only [loopHand, hstab, setCommand, setModeUI, SUSPEND_AFTER_MS]
  simp [hg, not_lt.mpr ht]

/-- An active step with a hand whose stable command is a valid command `c`:
the command is shown and published and the activity timestamp refreshed. -/
theorem loop_hand_valid (st : State) (f : FrameInput) (lm : HandPose)
    (rest : List HandPose) (c : String) (hr : st.running = true) (hs : st.suspended = false)
    (hl : f.landmarks = lm :: rest)
    (hstab : (stabilizeCommand st (recognizeCommand lm)).2 = c)
    (h1 : c ≠ "") (h2 : c ≠ "—") (h3 : c ≠ "Orden no reconocida") :
    loop st f =
      { (stabilizeCommand st (recognizeCommand lm)).1 with
        commandText := c, lastGoodCommandAt := f.now,
        events := (stabilizeCommand st (recognizeCommand lm)).1.events ++ [⟨"gestos", c⟩] } := by
  rw [loop_active st f hr hs, hl]
  simp only [loopHand, hstab, setCommand, emitGlobalCommand, setModeUI, SUSPEND_AFTER_MS]
  simp [h1, h2, h3]

/-- Start followed by a first closed-fist frame within the timeout. -/
theorem start_fist_first (st : State) (t0 : ℚ) (f : FrameInput) (lm : HandPose)
    (rest : List HandPose) (hl : f.landmarks = lm :: rest)
    (hf : fingerFlags lm = ⟨false, false, false, false, false⟩)
    (ht : f.now - t0 ≤ 3500) :
    loop (btnStartClick st t0) f = pendingFist st t0 1 := by
  have hraw := recognize_fist_flags lm hf
  have hd : (btnStartClick st t0).lastRawCommand ≠ some "Retroceder" := by
    simp [btnStartClick, setModeUI]
  have hst := stabilize_diff (btnStartClick st t0) "Retroceder" hd
  rw [loop_hand_pending (btnStartClick st t0) f lm rest rfl rfl hl
    (by rw [hraw, hst]; rfl) ht, hraw, hst]
  rfl

/-- A second closed-fist frame within the timeout. -/
theorem start_fist_second (st : State) (t0 : ℚ) (f : FrameInput) (lm : HandPose)
    (rest : List HandPose) (hl : f.landmarks = lm :: rest)
    (hf : fingerFlags lm = ⟨false, false, false, false, false⟩)
    (ht : f.now - t0 ≤ 3500) :
    loop (pendingFist st t0 1) f = pendingFist st t0 2 := by
  have hraw := recognize_fist_flags lm hf
  have hst := stabilize_same (pendingFist st t0 1) "Retroceder" rfl
  have hlt : ¬ ((pendingFist st t0 1).sameCount + 1 ≥ STABLE_FRAMES) := by
    show ¬ (1 + 1 ≥ 3); decide
  rw [if_neg hlt, if_neg hlt] at hst
  rw [loop_hand_pending (pendingFist st t0 1) f lm rest rfl rfl hl
    (by rw [hraw, hst]; rfl) ht, hraw, hst]
  rfl

/-- A third closed-fist frame makes "Retroceder" stable and publishes it. -/
theorem start_fist_third (st : State) (t0 : ℚ) (f : FrameInput) (lm : HandPose)
    (rest : List HandPose) (hl : f.landmarks = lm :: rest)
    (hf : fingerFlags lm = ⟨false, false, false, false, false⟩) :
    loop (pendingFist st t0 2) f =
      { pendingFist st t0 2 with
        sameCount := 3, currentStableCommand := "Retroceder", commandText := "Retroceder",
        lastGoodCommandAt := f.now,
        events := (btnStartClick st t0).events ++ [⟨"gestos", "Retroceder"⟩] } := by
  have hraw := recognize_fist_flags lm hf
  have hst := stabilize_same (pendingFist st t0 2) "Retroceder" rfl
  have hge : (pendingFist st t0 2).sameCount + 1 ≥ STABLE_FRAMES := by
    show 2 + 1 ≥ 3; decide
  rw [if_pos hge, if_pos hge] at hst
  rw [loop_hand_valid (pendingFist st t0 2) f lm rest "Retroceder" rfl rfl hl
    (by rw [hraw, hst]) (by decide) (by decide) (by decide), hraw, hst]
  rfl

/-- C14: from the state set by Start at time `t0`, three consecutive frames
that each show a closed fist, the first two within 3500 ms of Start, are all
processed in active mode, give the stable commands "—", "—", "Retroceder", and
publish exactly one event over the three frames: the command "Retroceder", on
the third frame. -/
theorem start_three_fists (st : State) (t0 : ℚ) (f1 f2 f3 : FrameInput)
    (lm1 lm2 lm3 : HandPose) (r1 r2 r3 : List HandPose)
    (hl1 : f1.landmarks = lm1 :: r1) (hl2 : f2.landmarks = lm2 :: r2)
    (hl3 : f3.landmarks = lm3 :: r3)
    (hf1 : fingerFlags lm1 = ⟨false, false, false, false, false⟩)
    (hf2 : fingerFlags lm2 = ⟨false, false, false, false, false⟩)
    (hf3 : fingerFlags lm3 = ⟨false, false, false, false, false⟩)
    (ht1 : f1.now - t0 ≤ 3500) (ht2 : f2.now - t0 ≤ 3500) :
    allActive (btnStartClick st t0) [f1, f2, f3] = true ∧
    (runFrames (btnStartClick st t0) [f1]).currentStableCommand = "—" ∧
    (runFrames (btnStartClick st t0) [f1, f2]).currentStableCommand = "—" ∧
    (runFrames (btnStartClick st t0) [f1, f2, f3]).currentStableCommand = "Retroceder" ∧
    (runFrames (btnStartClick st t0) [f1]).events = (btnStartClick st t0).events ∧
    (runFrames (btnStartClick st t0) [f1, f2]).events = (btnStartClick st t0).events ∧
    (runFrames (btnStartClick st t0) [f1, f2, f3]).events =
      (btnStartClick st t0).events ++ [⟨"gestos", "Retroceder"⟩] := by
  have e1 := start_fist_first st t0 f1 lm1 r1 hl1 hf1 ht1
  have e2 := start_fist_second st t0 f2 lm2 r2 hl2 hf2 ht2
  have e3 := start_fist_third st t0 f3 lm3 r3 hl3 hf3
  have h1 : runFrames (btnStartClick st t0) [f1] = pendingFist st t0 1 := e1
  have h2 : runFrames (btnStartClick st t0) [f1, f2] = pendingFist st t0 2 := by
    show loop (loop (btnStartClick st t0) f1) f2 = _
    rw [e1, e2]
  have h3 : runFrames (btnStartClick st t0) [f1, f2, f3] = loop (pendingFist st t0 2) f3 := by
    show loop (loop (loop (btnStartClick st t0) f1) f2) f3 = _
    rw [e1, e2]
  refine ⟨?_, ?_, ?_, ?_, ?_, ?_, ?_⟩
  · simp only [allActive, e1, e2]
    rfl
  · rw [h1]; rfl
  · rw [h2]; rfl
  · rw [h3, e3]
  · rw [h1]; rfl
  · rw [h2]; rfl
  · rw [h3, e3]

/-- C14 at Start from the initial state at time 0 and closed-fist frames at
times 16, 32 and 48. -/
theorem start_three_fists_witness :
    (runFrames (btnStartClick init 0) [handFrame 16 fistPose]).currentStableCommand = "—" ∧
    (runFrames (btnStartClick init 0)
      [handFrame 16 fistPose, handFrame 32 fistPose]).currentStableCommand = "—" ∧
    (runFrames (btnStartClick init 0)
      [handFrame 16 fistPose, handFrame 32 fistPose,
        handFrame 48 fistPose]).currentStableCommand = "Retroceder" ∧
    (runFrames (btnStartClick init 0)
      [handFrame 16 fistPose, handFrame 32 fistPose, handFrame 48 fistPose]).events =
      [⟨"gestos", "Retroceder"⟩] :=
  have h := start_three_fists init 0 (handFrame 16 fistPose) (handFrame 32 fistPose)
    (handFrame 48 fistPose) fistPose fistPose fistPose [] [] [] rfl rfl rfl
    (by decide!) (by decide!) (by decide!) (by decide!) (by decide!)
  ⟨h.2.1, h.2.2.1, h.2.2.2.1, h.2.2.2.2.2.2⟩

/-! ## Stop and ToggleSuspend -/

/-- C15, as stated, fails: Stop from the running, suspended state
`sleepState` leaves the mode suspended, the stabilizer holding "Avanzar" with
count 3, the activity timestamp at 48 and the motion baseline stored. -/
theorem stop_keeps_state_counterexample :
    sleepState.running = true ∧
    (btnStopClick sleepState).suspended = true ∧
    (btnStopClick sleepState).lastRawCommand = some "Avanzar" ∧
    (btnStopClick sleepState).sameCount = 3 ∧
    (btnStopClick sleepState).currentStableCommand = "Avanzar" ∧
    (btnStopClick sleepState).lastGoodCommandAt = 48 ∧
    (btnStopClick sleepState).lastFrameSmall = some (tinyImg 0) ∧
    btnStopClick sleepState ≠ init := by
  decide!

/-- C15 amended: Stop clears `running` and shows "—" (publishing nothing);
the mode, the stabilizer state, the activity timestamp, the motion baseline
and the published events are left as they were.  The defaults of mode and
stabilizer are established by the next Start, which also sets the activity
timestamp to its own time and keeps the motion baseline. -/
theorem stop_effect (st : State) :
    btnStopClick st = { st with running := false, commandText := "—" } ∧
    (∀ t : ℚ,
      btnStartClick (btnStopClick st) t =
        { st with running := true, suspended := false, lastGoodCommandAt := t,
                  lastRawCommand := none, sameCount := 0, currentStableCommand := "—",
                  commandText := "—" }) := by
  have h : btnStopClick st = { st with running := false, commandText := "—" } := by
    simp [btnStopClick, setCommand]
  refine ⟨h, fun t => ?_⟩
  rw [h]
  rfl

/-- C16: ToggleSuspend flips the mode when running and changes nothing when
not running; either way the activity timestamp, the stabilizer state and the
motion baseline are unchanged, and two toggles while running restore the
state. -/
theorem toggle_effect (st : State) :
    (st.running = true →
      btnToggleSuspendClick st = { st with suspended := !st.suspended }) ∧
    (st.running = false → btnToggleSuspendClick st = st) ∧
    ((btnToggleSuspendClick st).lastGoodCommandAt = st.lastGoodCommandAt ∧
      (btnToggleSuspendClick st).lastRawCommand = st.lastRawCommand ∧
      (btnToggleSuspendClick st).sameCount = st.sameCount ∧
      (btnToggleSuspendClick st).currentStableCommand = st.currentStableCommand ∧
      (btnToggleSuspendClick st).lastFrameSmall = st.lastFrameSmall) ∧
    (st.running = true → btnToggleSuspendClick (btnToggleSuspendClick st) = st) := by
  refine ⟨?_, ?_, ?_, ?_⟩
  · intro hr
    simp [btnToggleSuspendClick, hr, setModeUI]
  · intro hr
    simp [btnToggleSuspendClick, hr]
  · unfold btnToggleSuspendClick setModeUI
    split <;> exact ⟨rfl, rfl, rfl, rfl, rfl⟩
  · intro hr
    cases st
    simp_all [btnToggleSuspendClick, setModeUI]

/-- C16 at the running, active state `idleState` and at the stopped initial
state. -/
theorem toggle_effect_witness :
    idleState.running = true ∧
    (btnToggleSuspendClick idleState).suspended = true ∧
    btnToggleSuspendClick (btnToggleSuspendClick idleState) = idleState ∧
    init.running = false ∧ btnToggleSuspendClick init = init :=
  have hi : init.running = false := by decide
  ⟨rfl, by rw [(toggle_effect idleState).1 rfl]; rfl, (toggle_effect idleState).2.2.2 rfl,
    hi, (toggle_effect init).2.1 hi⟩

/-- C17 fails on the manual path.  ToggleSuspend on the running, suspended
state `sleepState` makes the mode active and leaves the stabilizer holding
"Avanzar" with count 3 and stable command "Avanzar", whereas the automatic
wake of the same state empties it.  The next frame, showing a closed fist,
then returns and publishes the stale "Avanzar". -/
theorem manual_wake_keeps_stabilizer :
    sleepState.running = true ∧ sleepState.suspended = true ∧
    ((btnToggleSuspendClick sleepState).suspended = false ∧
      (btnToggleSuspendClick sleepState).lastRawCommand = some "Avanzar" ∧
      (btnToggleSuspendClick sleepState).sameCount = 3 ∧
      (btnToggleSuspendClick sleepState).currentStableCommand = "Avanzar") ∧
    (wokenState.suspended = false ∧ wokenState.lastRawCommand = none ∧
      wokenState.sameCount = 0 ∧ wokenState.currentStableCommand = "—") ∧
    ((loop (btnToggleSuspendClick sleepState)
        (handFrame 5016 fistPose)).currentStableCommand = "Avanzar" ∧
      (loop (btnToggleSuspendClick sleepState) (handFrame 5016 fistPose)).events =
        sleepState.events ++ [⟨"gestos", "Avanzar"⟩] ∧
      (loop wokenState (handFrame 5016 fistPose)).currentStableCommand = "—" ∧
      (loop wokenState (handFrame 5016 fistPose)).events = sleepState.events) := by
  decide!

/-! ## Motion baseline across a wake -/

/-- The stabilizer does not touch the motion baseline. -/
theorem stabilize_lastFrameSmall (st : State) (c : String) :
    (stabilizeCommand st c).1.lastFrameSmall = st.lastFrameSmall := by
  unfold stabilizeCommand
  simp only
  split <;> split <;> rfl

/-- An active step does not touch the motion baseline. -/
theorem loop_active_lastFrameSmall (st : State) (f : FrameInput) (hr : st.running = true)
    (hs : st.suspended = false) : (loop st f).lastFrameSmall = st.lastFrameSmall := by
  cases hl : f.landmarks with
  | nil => rw [loop_active_noHand st f hr hs hl]
  | cons lm rest =>
    rw [loop_active st f hr hs, hl]
    have hc := setCommand_fields (stabilizeCommand st (recognizeCommand lm)).1
      (stabilizeCommand st (recognizeCommand lm)).2
    simp only [loopHand, setModeUI]
    split <;> split <;> simp [hc.2.2.2.1, stabilize_lastFrameSmall]

/-- C18, as stated, fails: after the automatic wake of `sleepState` by a
bright frame the stored baseline is that bright frame, not absent; and when
the system is suspended again at time 9000, the first motion score, computed
for a dark frame, is 255 and wakes the system at once. -/
theorem wake_keeps_baseline_counterexample :
    sleepState.suspended = true ∧ wokenState.suspended = false ∧
    wokenState.lastFrameSmall = some (tinyImg 255) ∧ wokenState.lastFrameSmall ≠ none ∧
    (loop wokenState (noHandFrame 9000)).suspended = true ∧
    (computeMotionScore (loop wokenState (noHandFrame 9000)) (tinyImg 0)).2 = 255 ∧
    (computeMotionScore (loop wokenState (noHandFrame 9000)) (tinyImg 0)).2 ≠ 0 ∧
    (loop (loop wokenState (noHandFrame 9000)) (imgFrame 9016 0)).suspended = false := by
  decide!

/-- C18 amended: the motion baseline is not discarded on wake.  A suspended
step, waking or not, stores the current frame as baseline; active steps and
the Start, Stop and ToggleSuspend handlers leave the baseline unchanged; and a
motion score computed with a stored baseline `prev` is the difference score
against `prev`, while it is 0 when no baseline is stored. -/
theorem wake_keeps_baseline (st : State) (f : FrameInput) (hr : st.running = true) :
    (st.suspended = true → (loop st f).lastFrameSmall = some f.img) ∧
    (st.suspended = false → (loop st f).lastFrameSmall = st.lastFrameSmall) ∧
    ((btnToggleSuspendClick st).lastFrameSmall = st.lastFrameSmall ∧
      (btnStopClick st).lastFrameSmall = st.lastFrameSmall ∧
      ∀ t : ℚ, (btnStartClick st t).lastFrameSmall = st.lastFrameSmall) ∧
    (∀ prev : List Nat, st.lastFrameSmall = some prev →
      (computeMotionScore st f.img).2 = motionSum f.img prev / ((f.img.length : ℚ) / 16)) ∧
    (st.lastFrameSmall = none → (computeMotionScore st f.img).2 = 0) := by
  refine ⟨?_, loop_active_lastFrameSmall st f hr, ⟨?_, ?_, fun t => rfl⟩, ?_, ?_⟩
  · intro hs
    rw [loop_suspended st f hr hs]
    split <;> rfl
  · unfold btnToggleSuspendClick setModeUI
    split <;> rfl
  · exact (setCommand_fields _ _).2.2.2.1
  · intro prev hp
    simp [computeMotionScore, hp]
  · intro hn
    simp [computeMotionScore, hn]

/-- C18 amended, at the wake of `sleepState` by a bright frame. -/
theorem wake_keeps_baseline_witness :
    sleepState.running = true ∧ sleepState.suspended = true ∧
    (loop sleepState (imgFrame 5000 255)).suspended = false ∧
    (loop sleepState (imgFrame 5000 255)).lastFrameSmall = some (tinyImg 255) :=
  have hr : sleepState.running = true := by decide!
  have hs : sleepState.suspended = true := by decide!
  ⟨hr, hs, by decide!, (wake_keeps_baseline sleepState (imgFrame 5000 255) hr).1 hs⟩

end Gestures
